import Mathlib

/-!
Verification of the HackTheBox CTF watcher (`htb_ctf_email.py`) against its
specification.  The Python program is shallowly embedded: JSON values become an
inductive type, the dynamically-typed helper functions become Lean functions on
that type, fallible operations return `Except`/`Option`, and the two passes of
`main` become explicit state-passing folds.  External collaborators (HTTP
fetches, SMTP send) are oracles passed in as functions.
-/

namespace HTB

/-- JSON values as produced by `json.load` / `requests.Response.json()`.
Numbers are modelled as integers (no float-valued field is ever consulted by
the program logic; a file whose numbers are fractional is treated as
unparseable by the modelled loader). Objects keep insertion order, as Python
dicts do. -/
inductive Json where
  | null : Json
  | bool : Bool → Json
  | num : Int → Json
  | str : String → Json
  | arr : List Json → Json
  | obj : List (String × Json) → Json
deriving Repr

/-- Python truthiness (`bool(x)`) of a JSON-shaped value: `None`, `False`, `0`,
`""`, `[]` and `{}` are falsy, everything else truthy. -/
def truthy : Json → Bool
  | .null => false
  | .bool b => b
  | .num n => n != 0
  | .str s => !s.isEmpty
  | .arr xs => !xs.isEmpty
  | .obj kvs => !kvs.isEmpty

/-- Decimal digits, most significant first; structural recursion on the fuel
so that the kernel can evaluate it (the fuel never runs out when it starts at
the number itself, since `n / 10 < n` for positive `n`). -/
def natDigsF : Nat → Nat → List Char
  | 0, _ => []
  | fuel + 1, n =>
    if n = 0 then [] else natDigsF fuel (n / 10) ++ [Char.ofNat (48 + n % 10)]

/-- Decimal digits of a natural number, most significant first. -/
def natDigs (n : Nat) : List Char := natDigsF n n

/-- Decimal rendering of a natural number (Python `str`). -/
def natStr (n : Nat) : String := if n = 0 then "0" else String.mk (natDigs n)

/-- Decimal rendering of an integer (Python `str`). -/
def intStr (n : Int) : String :=
  if n < 0 then "-" ++ natStr n.natAbs else natStr n.natAbs

/-- A single-quote character, used by the Python `repr` of strings. -/
def sq : String := String.singleton (Char.ofNat 39)

mutual
/-- Python `str()` of a JSON-shaped value: `str(None) = "None"`,
`str(True) = "True"`, strings pass through unchanged, numbers render in
decimal; containers render by `repr` (modelled without `repr`'s escaping of
special characters inside strings, which no program path depends on). -/
def pyStr : Json → String
  | .null => "None"
  | .bool true => "True"
  | .bool false => "False"
  | .num n => intStr n
  | .str s => s
  | .arr xs => "[" ++ pyReprList xs ++ "]"
  | .obj kvs => "\x7b" ++ pyReprPairs kvs ++ "\x7d"

/-- Python `repr()` of a JSON-shaped value (string escaping not modelled). -/
def pyRepr : Json → String
  | .null => "None"
  | .bool true => "True"
  | .bool false => "False"
  | .num n => intStr n
  | .str s => sq ++ s ++ sq
  | .arr xs => "[" ++ pyReprList xs ++ "]"
  | .obj kvs => "\x7b" ++ pyReprPairs kvs ++ "\x7d"

/-- Comma-separated `repr`s of the elements of a Python list. -/
def pyReprList : List Json → String
  | [] => ""
  | [x] => pyRepr x
  | x :: xs => pyRepr x ++ ", " ++ pyReprList xs

/-- Comma-separated `repr`s of the items of a Python dict. -/
def pyReprPairs : List (String × Json) → String
  | [] => ""
  | [(k, v)] => sq ++ k ++ sq ++ ": " ++ pyRepr v
  | (k, v) :: t => sq ++ k ++ sq ++ ": " ++ pyRepr v ++ ", " ++ pyReprPairs t
end

/-- First value bound to `k` in an association list, or `Json.null` if absent:
Python's `dict.get(k)` (a key stored with value `null` and a missing key both
yield `None`, exactly as after `json.load`). -/
def lookupD : List (String × Json) → String → Json
  | [], _ => .null
  | (k', v) :: t, k => if k' = k then v else lookupD t k

/-- Python `x.get(k)`: raises (`Except.error`) when `x` is not a dict,
otherwise returns the stored value or `None`. -/
def pyGetE (j : Json) (k : String) : Except Unit Json :=
  match j with
  | .obj kvs => .ok (lookupD kvs k)
  | _ => .error ()

/-- Python `x.get(k)` restricted to dict-shaped values (callers establish the
shape first); non-dicts give `None`. -/
def pyGetD (j : Json) (k : String) : Json :=
  match j with
  | .obj kvs => lookupD kvs k
  | _ => .null

/-- Python `x.get(k, dflt)`: the stored value when the key is present (even if
it is `null`), else `dflt`; raises when `x` is not a dict. -/
def pyGetDefE (j : Json) (k : String) (dflt : Json) : Except Unit Json :=
  match j with
  | .obj kvs =>
    match kvs.find? (fun p => p.1 = k) with
    | some p => .ok p.2
    | none => .ok dflt
  | _ => .error ()

/-- Python `x[k]` on a dict: `KeyError` when missing, `TypeError` when not a
dict; both are exceptions (`Except.error`). -/
def pyGetIdx (j : Json) (k : String) : Except Unit Json :=
  match j with
  | .obj kvs =>
    match kvs.find? (fun p => p.1 = k) with
    | some p => .ok p.2
    | none => .error ()
  | _ => .error ()

/-- Python `a or b` on JSON-shaped values: `a` when truthy, else `b`. -/
def pyOr (a b : Json) : Json := if truthy a then a else b

/-- Python `d[k] = v` on a dict value: replaces the first binding of `k` in
place, or appends a new binding (dict insertion order); non-dicts are returned
unchanged (all call sites have already established the dict shape). -/
def jSet (j : Json) (k : String) (v : Json) : Json :=
  match j with
  | .obj kvs => .obj (setKey kvs k v)
  | other => other
where
  setKey : List (String × Json) → String → Json → List (String × Json)
    | [], k, v => [(k, v)]
    | (k', v') :: t, k, v =>
      if k' = k then (k, v) :: t else (k', v') :: setKey t k v

/-- The string value of a JSON value, if it is a string. -/
def asStr : Json → Option String
  | .str s => some s
  | _ => none

/-! ### Credential extraction (`TOKEN_RE`, `URL_TOKEN_RE`,
`extract_token_from_text`)

The two Python regular expressions are fixed, so their `re.search` semantics
(leftmost match, alternatives tried left to right, greedy quantifiers with
backtracking) are implemented directly as matchers on character lists. -/

/-- Characters matched by Python `\s` (ASCII range, as produced by the
program's inputs): space, tab, newline, carriage return, vertical tab, form
feed. -/
def isSpc (c : Char) : Bool :=
  c = ' ' || c = '\t' || c = '\n' || c = '\r' || c = Char.ofNat 11 || c = Char.ofNat 12

/-- Characters of the credential class `[A-Za-z0-9_\-]`. -/
def isTokChar (c : Char) : Bool :=
  ('A' ≤ c && c ≤ 'Z') || ('a' ≤ c && c ≤ 'z') || ('0' ≤ c && c ≤ '9') ||
  c = '_' || c = '-'

/-- Match a lowercase literal case-insensitively at the head of the input,
returning the rest on success (the `re.I` flag on both patterns). -/
def matchLit : List Char → List Char → Option (List Char)
  | [], cs => some cs
  | _ :: _, [] => none
  | l :: ls, c :: cs => if c.toLower = l then matchLit ls cs else none

/-- Greedy capture `([A-Za-z0-9_\-]{lo,hi})` at the head of the input: the
maximal run of credential characters truncated to `hi`, failing below `lo`.
Nothing follows the group in either pattern, so no backtracking into the run
is ever needed. -/
def capRun (lo hi : Nat) (cs : List Char) : Option (List Char) :=
  let v := (cs.takeWhile isTokChar).take hi
  if lo ≤ v.length then some v else none

/-- One URL-parameter alternative `name=` followed by the 4–80 character
capture, as in `URL_TOKEN_RE` after the `[?&]`. -/
def tryParam (name : List Char) (cs : List Char) : Option (List Char) :=
  match matchLit name cs with
  | some ('=' :: r) => capRun 4 80 r
  | _ => none

/-- The parameter-name alternation of `URL_TOKEN_RE`, tried left to right. -/
def tryParams : List (List Char) → List Char → Option (List Char)
  | [], _ => none
  | n :: ns, cs => (tryParam n cs).orElse fun _ => tryParams ns cs

/-- Attempt of `URL_TOKEN_RE` (`[?&](?:code|token|access_code|invite)=([A-Za-z0-9_\-]{4,80})`)
anchored at the current position. -/
def urlMatchAt : List Char → Option (List Char)
  | [] => none
  | c :: rest =>
    if c = '?' || c = '&' then
      tryParams ["code".data, "token".data, "access_code".data, "invite".data] rest
    else none

/-- Leftmost-match search: try the anchored matcher at every position, left to
right (the semantics of `re.search`). -/
def searchWith (m : List Char → Option (List Char)) : List Char → Option (List Char)
  | [] => none
  | cs₀@(_ :: rest) => (m cs₀).orElse fun _ => searchWith m rest

/-- `URL_TOKEN_RE.search`, returning group 1. -/
def urlSearch (cs : List Char) : Option (List Char) := searchWith urlMatchAt cs

/-- The label alternation of `TOKEN_RE`
(`token|access\s*(?:code|key)|join\s*code|join\s*key|invite\s*code`),
anchored; returns the rest of the input after the label.  The alternatives
begin with distinct literals, so at most one can match at a given position. -/
def labelAt (cs : List Char) : Option (List Char) :=
  (matchLit "token".data cs).orElse fun _ =>
  ((matchLit "access".data cs).bind fun r =>
     let r' := r.dropWhile isSpc
     (matchLit "code".data r').orElse fun _ => matchLit "key".data r').orElse fun _ =>
  ((matchLit "join".data cs).bind fun r =>
     matchLit "code".data (r.dropWhile isSpc)).orElse fun _ =>
  ((matchLit "join".data cs).bind fun r =>
     matchLit "key".data (r.dropWhile isSpc)).orElse fun _ =>
  ((matchLit "invite".data cs).bind fun r =>
     matchLit "code".data (r.dropWhile isSpc))

/-- The suffix `\s*[:=\-]?\s*([A-Za-z0-9_\-]{4,40})` of `TOKEN_RE`.  The
whitespace runs are maximal (whitespace is disjoint from both the separator
class and the credential class); the one genuine backtracking point is the
optional separator, which matters when it is `-` (also a credential
character), hence the `orElse` fallback that retries without consuming it. -/
def afterLabel (cs : List Char) : Option (List Char) :=
  let cs1 := cs.dropWhile isSpc
  match cs1 with
  | c :: r =>
    if c = ':' || c = '=' || c = '-' then
      (capRun 4 40 (r.dropWhile isSpc)).orElse fun _ => capRun 4 40 cs1
    else capRun 4 40 cs1
  | [] => none

/-- Attempt of `TOKEN_RE` anchored at the current position. -/
def tokenMatchAt (cs : List Char) : Option (List Char) :=
  (labelAt cs).bind afterLabel

/-- `TOKEN_RE.search`, returning group 1. -/
def tokenSearch (cs : List Char) : Option (List Char) := searchWith tokenMatchAt cs

/-- `extract_token_from_text`: empty text yields nothing; otherwise the URL
pattern is searched first and the labelled pattern only when it found no
match. -/
def extract_token_from_text (text : String) : Option String :=
  if text.isEmpty then none
  else
    match (urlSearch text.data).orElse fun _ => tokenSearch text.data with
    | some v => some (String.mk v)
    | none => none

/-! ### Eligibility classification (`is_free_or_has_token`) -/

/-- The five free-text fields consulted by `is_free_or_has_token`, in source
order. -/
def freeTextKeys : List String :=
  ["description", "long_description", "short_description",
   "instructions", "join_instructions"]

/-- The text searched for a credential:
`"\n".join(str(detail.get(k, "")) for k in (...))` — each absent field
contributes the empty string, a present field contributes `str()` of its
value. -/
def classifyText (detail : Json) : String :=
  String.intercalate "\n"
    (freeTextKeys.map fun k =>
      pyStr ((pyGetDefE detail k (.str "")).toOption.getD (.str "")))

/-- Python `x in (None, 0)`: `None`, the number `0`, and (because
`False == 0` in Python) the boolean `False`. -/
def pyInNoneZero : Json → Bool
  | .null => true
  | .num n => n == 0
  | .bool b => !b
  | _ => false

/-- Python `x == 1`: the number `1` and (because `True == 1`) the boolean
`True`. -/
def pyEqOne : Json → Bool
  | .num n => n == 1
  | .bool b => b
  | _ => false

/-- `is_free_or_has_token`: `hasCode in (None, 0)` means public; `hasCode == 1`
means token-gated, eligible exactly when a credential is extracted from the
joined free text; anything else is private.  Raises when `detail` is not a
dict. -/
def is_free_or_has_token (detail : Json) : Except Unit (Bool × Option String) :=
  match pyGetE detail "hasCode" with
  | .error _ => .error ()
  | .ok hc =>
    if pyInNoneZero hc then
      .ok (true, none)
    else if pyEqOne hc then
      match extract_token_from_text (classifyText detail) with
      | some t => .ok (true, some t)
      | none => .ok (false, none)
    else
      .ok (false, none)

/-! ### Datetime model (`dateutil.parser.parse`, `strftime`, epoch arithmetic)

`dateutil` and `datetime` are external libraries; they are modelled here for
the ISO-8601 shapes the program actually receives and produces.  -/

/-- Clock fields of a parsed datetime, with the UTC offset in minutes
(`none` for a naive value without timezone information), exactly as
`dateutil.parser.parse` keeps them — it performs no conversion. -/
structure DTFields where
  year : Nat
  month : Nat
  day : Nat
  hour : Nat
  minute : Nat
  second : Nat
  offsetMin : Option Int
deriving Repr, DecidableEq

/-- A fixed-width run of decimal digits read from the head of the input. -/
def readDigits : Nat → List Char → Option (Nat × List Char)
  | 0, cs => some (0, cs)
  | _ + 1, [] => none
  | w + 1, c :: cs =>
    if '0' ≤ c && c ≤ '9' then
      (readDigits w cs).map fun p => ((c.toNat - 48) * 10 ^ w + p.1, p.2)
    else none

/-- Drop a fractional-seconds suffix `.dddd…` if present. -/
def dropFrac : List Char → List Char
  | '.' :: cs => cs.dropWhile fun c => '0' ≤ c && c ≤ '9'
  | cs => cs

/-- Offset suffix of an ISO timestamp: empty (naive), `Z`, or `±HH[:]MM`. -/
def readOffset : List Char → Option (Option Int)
  | [] => some none
  | ['Z'] => some (some 0)
  | ['z'] => some (some 0)
  | c :: cs =>
    if c = '+' || c = '-' then
      match readDigits 2 cs with
      | none => none
      | some (h, rest) =>
        let rest' := match rest with
          | ':' :: r => r
          | r => r
        match readDigits 2 rest' with
        | none => none
        | some (m, []) =>
          let total : Int := (h : Int) * 60 + (m : Int)
          some (some (if c = '-' then -total else total))
        | some _ => none
    else none

/-- Time-of-day and offset part `HH:MM[:SS[.ffff]][offset]`. -/
def readTime (cs : List Char) : Option (Nat × Nat × Nat × Option Int) :=
  match readDigits 2 cs with
  | none => none
  | some (h, cs₁) =>
    match cs₁ with
    | ':' :: cs₂ =>
      match readDigits 2 cs₂ with
      | none => none
      | some (mi, cs₃) =>
        let withSec :=
          match cs₃ with
          | ':' :: cs₄ =>
            match readDigits 2 cs₄ with
            | none => none
            | some (s, cs₅) => some (s, dropFrac cs₅)
          | _ => some (0, cs₃)
        match withSec with
        | none => none
        | some (s, cs₆) =>
          if h ≤ 23 && mi ≤ 59 && s ≤ 59 then
            (readOffset cs₆).map fun off => (h, mi, s, off)
          else none
    | _ => none

/-- Model of `dateutil.parser.parse` restricted to ISO-8601 inputs
`YYYY-MM-DD[{T or space}HH:MM[:SS[.ffff]][Z or ±HH:MM]]`: the clock fields are
returned exactly as written (no timezone conversion).  Strings outside this
shape are treated as unparseable — for such inputs `dateutil` either raises,
which every caller in the program turns into the same fallback behaviour, or
is simply never exercised by the program's data. -/
def parseISO (s : String) : Option DTFields :=
  match readDigits 4 s.data with
  | none => none
  | some (y, cs₁) =>
    match cs₁ with
    | '-' :: cs₂ =>
      match readDigits 2 cs₂ with
      | none => none
      | some (mo, cs₃) =>
        match cs₃ with
        | '-' :: cs₄ =>
          match readDigits 2 cs₄ with
          | none => none
          | some (d, cs₅) =>
            if 1 ≤ mo && mo ≤ 12 && 1 ≤ d && d ≤ 31 then
              match cs₅ with
              | [] => some ⟨y, mo, d, 0, 0, 0, none⟩
              | sep :: cs₆ =>
                if sep = 'T' || sep = ' ' then
                  (readTime cs₆).map fun (h, mi, s, off) => ⟨y, mo, d, h, mi, s, off⟩
                else none
            else none
        | _ => none
    | _ => none

/-- Days since 1970-01-01 of a civil date (Hinnant's algorithm; divisions are
on non-negative operands, where Lean's `Int` division agrees with floor). -/
def daysFromCivil (y : Int) (m d : Nat) : Int :=
  let y' := if m ≤ 2 then y - 1 else y
  let era := (if 0 ≤ y' then y' else y' - 399) / 400
  let yoe := y' - era * 400
  let mp : Int := (Int.ofNat m + 9) % 12
  let doy := (153 * mp + 2) / 5 + (Int.ofNat d - 1)
  let doe := yoe * 365 + yoe / 4 - yoe / 100 + doy
  era * 146097 + doe - 719468

/-- Seconds since the epoch denoted by aware clock fields. -/
def epochOf (f : DTFields) (offMin : Int) : Int :=
  daysFromCivil (Int.ofNat f.year) f.month f.day * 86400 +
    (f.hour : Int) * 3600 + (f.minute : Int) * 60 + (f.second : Int) - offMin * 60

/-- Model of `date_parser.parse` as used by the reminder pass, where the
parsed value is immediately subtracted from the timezone-aware `now`: an
aware ISO string yields its instant in epoch seconds; a naive or unparseable
string yields `none` (in Python, parsing a naive string succeeds but the
aware-naive subtraction then raises `TypeError`, which the per-record handler
catches — the same skip as a parse failure). -/
def parseDateAware (s : String) : Option Int :=
  match parseISO s with
  | none => none
  | some f =>
    match f.offsetMin with
    | none => none
    | some off => some (epochOf f off)

/-- Zero-padded decimal of width 2 (`strftime` `%m`, `%d`, `%H`, `%M`). -/
def pad2 (n : Nat) : String := if n < 10 then "0" ++ natStr n else natStr n

/-- Zero-padded decimal of width 4 (`strftime` `%Y`). -/
def pad4 (n : Nat) : String :=
  if n < 10 then "000" ++ natStr n
  else if n < 100 then "00" ++ natStr n
  else if n < 1000 then "0" ++ natStr n
  else natStr n

/-- `dt.strftime("%Y-%m-%d %H:%M UTC")`: renders the stored clock fields and
appends the literal text `UTC`; the value's actual UTC offset is ignored (no
conversion is performed). -/
def strftimeUTC (f : DTFields) : String :=
  pad4 f.year ++ "-" ++ pad2 f.month ++ "-" ++ pad2 f.day ++ " " ++
    pad2 f.hour ++ ":" ++ pad2 f.minute ++ " UTC"

/-- `format_datetime`: falsy input (including `None` and `""`) renders the
placeholder `Unknown`; a parseable string renders via `strftime`; a string
the parser rejects, or a truthy non-string (on which `parse` raises
`TypeError`), is returned unchanged by the `except` fallback. -/
def format_datetime (j : Json) : Json :=
  if truthy j then
    match j with
    | .str s =>
      match parseISO s with
      | some f => .str (strftimeUTC f)
      | none => .str s
    | other => other
  else .str "Unknown"

/-! ### Notification composer (`choose_avatar`, `clean_description`,
`build_email_body`, the reminder body) -/

/-- Python `str.strip()` (ASCII whitespace, which covers the program's
inputs). -/
def pyStrip (s : String) : String :=
  String.mk ((s.data.dropWhile isSpc).reverse.dropWhile isSpc).reverse

/-- The image keys probed by `choose_avatar`, in source order. -/
def avatarKeys : List String := ["banner", "logo", "avatar", "image", "banner_image"]

/-- One probe of `choose_avatar`'s loop body for key `k`, returning `none` to
mean "fall through to the next key". -/
def avatarProbe (detail ctf : Json) (k : String) : Except Unit (Option String) :=
  match pyGetE detail k with
  | .error _ => .error ()
  | .ok dv =>
    match pyGetE ctf k with
    | .error _ => .error ()
    | .ok cv =>
      match pyOr dv cv with
      | .str s =>
        if (pyStrip s).isEmpty then .ok none
        else if s.startsWith "http" then .ok (some s)
        else if s.startsWith "//" then .ok (some ("https:" ++ s))
        else if s.startsWith "/" then .ok (some ("https://ctf.hackthebox.com" ++ s))
        else .ok none
      | _ => .ok none

/-- `choose_avatar`: probe the image keys in order; the first string value
with non-blank content that is absolute, protocol-relative or root-relative
wins (made absolute); anything else falls through; no key left means no
banner. -/
def choose_avatar (detail ctf : Json) : Except Unit (Option String) :=
  go avatarKeys
where
  go : List String → Except Unit (Option String)
    | [] => .ok none
    | k :: ks =>
      match avatarProbe detail ctf k with
      | .error _ => .error ()
      | .ok (some u) => .ok (some u)
      | .ok none => go ks

/-- Model of `str(BeautifulSoup(unescape(x), "html.parser"))`: an external
re-serialization of the HTML text; modelled as the identity on the text —
no claim depends on its output, only on where it is embedded. -/
def bsoupRender (s : String) : String := s

/-- `clean_description`: falsy input yields the empty string; a truthy string
is re-serialized; `unescape` raises on a truthy non-string. -/
def clean_description (h : Json) : Except Unit String :=
  if truthy h then
    match h with
    | .str s => .ok (bsoupRender s)
    | _ => .error ()
  else .ok ""

/-- `build_email_body`: the discovery-alert HTML, assembled exactly as the
source f-string does (each interpolation is Python `str()`). -/
def build_email_body (ctf detail : Json) (token : Option String) :
    Except Unit String :=
  match pyGetE ctf "name" with
  | .error _ => .error ()
  | .ok name =>
  match pyGetE ctf "org_name" with
  | .error _ => .error ()
  | .ok orgC =>
  match pyGetE detail "org_name" with
  | .error _ => .error ()
  | .ok orgD =>
  let org := pyOr (pyOr orgC orgD) (.str "Unknown")
  match pyGetE ctf "startDate" with
  | .error _ => .error ()
  | .ok sC =>
  match pyGetE detail "starts_at" with
  | .error _ => .error ()
  | .ok sD =>
  let start := format_datetime (pyOr sC sD)
  match pyGetE ctf "endDate" with
  | .error _ => .error ()
  | .ok eC =>
  match pyGetE detail "ends_at" with
  | .error _ => .error ()
  | .ok eD =>
  let endd := format_datetime (pyOr eC eD)
  match pyGetE ctf "slug" with
  | .error _ => .error ()
  | .ok slug =>
  let url := "https://ctf.hackthebox.com/event/details/" ++ pyStr slug
  match choose_avatar detail ctf with
  | .error _ => .error ()
  | .ok avatar =>
  match pyGetDefE detail "description" (.str "") with
  | .error _ => .error ()
  | .ok descJ =>
  match clean_description descJ with
  | .error _ => .error ()
  | .ok descHtml =>
  let html :=
    "\n    <h2>🟢 New HackTheBox CTF Detected!</h2>\n    <p><b>" ++ pyStr name ++
    "</b></p>\n    <p><b>Organiser:</b> " ++ pyStr org ++
    "<br>\n       <b>Starts:</b> " ++ pyStr start ++
    "<br>\n       <b>Ends:</b> " ++ pyStr endd ++
    "<br>\n       <a href=\"" ++ url ++ "\">View on HackTheBox</a></p>\n    "
  let html := html ++
    match token with
    | some t => "<p><b>🔑 Access Token:</b> <code>" ++ t ++ "</code></p>"
    | none => ""
  let html := html ++
    (if descHtml.isEmpty then ""
     else "<hr><div><b>Description:</b><br>" ++ descHtml ++ "</div>")
  let html := html ++
    match avatar with
    | some a => "<br><img src=\"" ++ a ++ "\" alt=\"CTF banner\" width=\"500\"><br>"
    | none => ""
  .ok html

/-- The reminder-alert HTML f-string from the reminder pass of `main`. -/
def reminderHtml (name : Json) (slug : String) : String :=
  "\n                    <h2>⏰ Reminder: CTF Starting Soon!</h2>\n" ++
  "                    <p>The CTF <b>" ++ pyStr name ++
  "</b> starts in less than 72 hours!</p>\n" ++
  "                    <p><a href=\"https://ctf.hackthebox.com/event/details/" ++
  slug ++ "\">View Event</a></p>\n                    "

/-! ### Cache store (`load_cache`, `save_cache`)

`save_cache` delegates to `json.dump` and `load_cache` to `json.load`; the
serialization is modelled by an executable encoder/parser pair on `Json`.
The encoder escapes exactly the two characters the parser cannot take
literally inside a string (`"` and `\`); Python additionally escapes control
characters and uses indentation, neither of which affects the round-tripped
content.  The parser accepts the grammar `json.load` accepts on the program's
data (fractional numbers excepted, which the cache never contains); content it
rejects models a file `json.load` raises on. -/

/-- Escape of one character inside an encoded JSON string. -/
def escChar (c : Char) : List Char :=
  if c = '"' || c = '\\' then ['\\', c] else [c]

/-- Body of an encoded JSON string. -/
def encStrBody : List Char → List Char
  | [] => []
  | c :: t => escChar c ++ encStrBody t

/-- An encoded JSON string, quotes included. -/
def encStr (s : String) : List Char := '"' :: encStrBody s.data ++ ['"']

mutual
/-- The serialized text of a JSON value (`json.dump`, modulo whitespace and
over-escaping, neither of which survives a round trip). -/
def encodeJ : Json → List Char
  | .null => "null".data
  | .bool true => "true".data
  | .bool false => "false".data
  | .num n => (intStr n).data
  | .str s => encStr s
  | .arr xs => '[' :: encItems xs ++ [']']
  | .obj kvs => '\x7b' :: encPairs kvs ++ ['\x7d']

/-- Comma-separated encodings of array elements. -/
def encItems : List Json → List Char
  | [] => []
  | [x] => encodeJ x
  | x :: xs => encodeJ x ++ ',' :: encItems xs

/-- Comma-separated `key:value` encodings of object members. -/
def encPairs : List (String × Json) → List Char
  | [] => []
  | [(k, v)] => encStr k ++ ':' :: encodeJ v
  | (k, v) :: t => encStr k ++ ':' :: encodeJ v ++ ',' :: encPairs t
end

/-- JSON insignificant whitespace. -/
def skipWs (cs : List Char) : List Char :=
  cs.dropWhile fun c => c = ' ' || c = '\t' || c = '\n' || c = '\r'

/-- Decoding of a character following a backslash in a JSON string. -/
def escDecode (e : Char) : Option Char :=
  if e = '"' then some '"'
  else if e = '\\' then some '\\'
  else if e = '/' then some '/'
  else if e = 'n' then some '\n'
  else if e = 't' then some '\t'
  else if e = 'r' then some '\r'
  else if e = 'b' then some (Char.ofNat 8)
  else if e = 'f' then some (Char.ofNat 12)
  else none

/-- Parse the body of a JSON string after the opening quote, returning the
decoded characters and the rest of the input after the closing quote. -/
def parseStrBody : List Char → Option (List Char × List Char)
  | [] => none
  | c :: r =>
    if c = '"' then some ([], r)
    else if c = '\\' then
      match r with
      | [] => none
      | e :: r' =>
        match escDecode e with
        | none => none
        | some c' => (parseStrBody r').map fun p => (c' :: p.1, p.2)
    else (parseStrBody r).map fun p => (c :: p.1, p.2)

/-- Decimal digit test. -/
def isDig (c : Char) : Bool := '0' ≤ c && c ≤ '9'

/-- Numeric value of a digit run. -/
def digitsVal (cs : List Char) : Nat := cs.foldl (fun a c => a * 10 + (c.toNat - 48)) 0

/-- Parse an integer JSON number at the head of the input. -/
def parseNum (cs : List Char) : Option (Json × List Char) :=
  let (neg, cs') := match cs with
    | '-' :: r => (true, r)
    | r => (false, r)
  let digs := cs'.takeWhile isDig
  let rest := cs'.dropWhile isDig
  if digs.isEmpty then none
  else
    let n : Int := Int.ofNat (digitsVal digs)
    some (.num (if neg then -n else n), rest)

/-- Strip an exact literal from the head of the input (case-sensitive). -/
def stripLit : List Char → List Char → Option (List Char)
  | [], cs => some cs
  | _ :: _, [] => none
  | l :: ls, c :: cs => if c = l then stripLit ls cs else none

/-- Strip one expected character from the head of the input. -/
def dropHead (c : Char) : List Char → Option (List Char)
  | x :: r => if x = c then some r else none
  | [] => none

mutual
/-- Parse one JSON value; `fuel` decreases on every recursive call, so any
fuel at least the input length suffices. -/
def parseJ : Nat → List Char → Option (Json × List Char)
  | 0, _ => none
  | fuel + 1, cs =>
    match skipWs cs with
    | [] => none
    | c :: r =>
      if c = '"' then (parseStrBody r).map fun p => (.str (String.mk p.1), p.2)
      else if c = '[' then
        match dropHead ']' (skipWs r) with
        | some r' => some (.arr [], r')
        | none => (parseItems fuel (skipWs r)).map fun p => (.arr p.1, p.2)
      else if c = '\x7b' then
        match dropHead '\x7d' (skipWs r) with
        | some r' => some (.obj [], r')
        | none => (parsePairs fuel (skipWs r)).map fun p => (.obj p.1, p.2)
      else if c = '-' || isDig c then parseNum (c :: r)
      else
        match stripLit "null".data (c :: r) with
        | some r' => some (.null, r')
        | none =>
          match stripLit "true".data (c :: r) with
          | some r' => some (.bool true, r')
          | none =>
            match stripLit "false".data (c :: r) with
            | some r' => some (.bool false, r')
            | none => none

/-- Parse the elements of a non-empty array up to and including `]`. -/
def parseItems : Nat → List Char → Option (List Json × List Char)
  | 0, _ => none
  | fuel + 1, cs =>
    match parseJ fuel cs with
    | none => none
    | some (v, r) =>
      match skipWs r with
      | [] => none
      | c :: r' =>
        if c = ',' then (parseItems fuel r').map fun p => (v :: p.1, p.2)
        else if c = ']' then some ([v], r')
        else none

/-- Parse the members of a non-empty object up to and including the closing
brace. -/
def parsePairs : Nat → List Char → Option (List (String × Json) × List Char)
  | 0, _ => none
  | fuel + 1, cs =>
    match dropHead '"' (skipWs cs) with
    | none => none
    | some r =>
      match parseStrBody r with
      | none => none
      | some (k, r₁) =>
        match dropHead ':' (skipWs r₁) with
        | none => none
        | some r₂ =>
          match parseJ fuel r₂ with
          | none => none
          | some (v, r₃) =>
            match skipWs r₃ with
            | [] => none
            | c :: r₄ =>
              if c = ',' then
                (parsePairs fuel r₄).map fun p => ((String.mk k, v) :: p.1, p.2)
              else if c = '\x7d' then some ([(String.mk k, v)], r₄)
              else none
end

/-- Parse a complete JSON document (`json.load`): one value, possibly
surrounded by whitespace, and nothing else. -/
def parseTop (cs : List Char) : Option Json :=
  match parseJ (cs.length + 1) cs with
  | some (v, rest) => if skipWs rest = [] then some v else none
  | none => none

/-- `save_cache`: the file content written for a cache dict (`json.dump` of
the mapping). -/
def save_cache (cache : List (String × Json)) : String :=
  String.mk (encodeJ (.obj cache))

/-- `load_cache`: a missing file (`none`) or an unparseable file yields the
empty dict; otherwise the parsed JSON document. -/
def load_cache (file : Option String) : Json :=
  match file with
  | none => .obj []
  | some s =>
    match parseTop s.data with
    | some v => v
    | none => .obj []

/-- `TrackingRecord` (spec §3): identifier-keyed persisted state with a slug,
a nullable ISO start timestamp, the ISO time of the last check, and the
`reminder_sent` flag. -/
structure TrackingRecord where
  slug : String
  starts_at : Option String
  checked : String
  reminder_sent : Bool
deriving Repr

/-- The dict value `main` stores for a tracking record, in insertion order. -/
def trJson (t : TrackingRecord) : Json :=
  .obj [("slug", .str t.slug),
        ("starts_at", match t.starts_at with | some s => .str s | none => .null),
        ("checked", .str t.checked),
        ("reminder_sent", .bool t.reminder_sent)]

/-! ### Watch cycle (`main`)

`main` is split into its two passes.  External collaborators become oracles:
`fetch` models `get_ctf_details` (`Except.error` is a transport exception,
`ok none` is a non-2xx status, `ok (some d)` is the decoded body) and
`sendOk` models the boolean result of `send_email` (which never raises).
Effects are accumulated: `sends` records each email body handed to
`send_email`, `saves` records the cache mapping at each `save_cache` call. -/

/-- A detail-fetch oracle. -/
def Fetch : Type := String → Except Unit (Option Json)

/-- State threaded through a pass: the in-memory cache plus the observable
effects so far. -/
structure PassOut where
  cache : List (String × Json)
  sends : List String
  saves : List (List (String × Json))
deriving Repr

/-- Decision and composition for one tracking record of the reminder pass:
`some html` exactly when the record fires (parseable aware start time, flag
falsy, remaining time inside the window, slug present, detail fetched truthy
and dict-shaped); `none` collapses every skip, including each exception the
per-record `except` handler catches — all of them leave the state untouched.
The send and the two mutations happen only in the `some` case. -/
def tryRemind (fetch : Fetch) (now win : Int) (info : Json) : Option String :=
  match pyGetE info "starts_at" with
  | .error _ => none
  | .ok sj =>
    match asStr sj with
    | none => none
    | some s =>
      match parseDateAware s with
      | none => none
      | some t =>
        let delta := t - now
        match pyGetE info "reminder_sent" with
        | .error _ => none
        | .ok rs =>
          if !truthy rs && decide (0 ≤ delta) && decide (delta ≤ win) then
            match pyGetIdx info "slug" with
            | .error _ => none
            | .ok slugJ =>
              match fetch (pyStr slugJ) with
              | .error _ => none
              | .ok none => none
              | .ok (some detail) =>
                if truthy detail then
                  match pyGetE detail "name" with
                  | .error _ => none
                  | .ok nameJ => some (reminderHtml nameJ (pyStr slugJ))
                else none
          else none

/-- One iteration of the reminder loop: on a firing record the body is sent
(result discarded, as in the source), `reminder_sent` is set on the record in
the live cache, and the cache is saved. -/
def reminderStep (fetch : Fetch) (sendOk : String → Bool) (now win : Int)
    (st : PassOut) (entry : String × Json) : PassOut :=
  match tryRemind fetch now win entry.2 with
  | none => st
  | some html =>
    let _ := sendOk html
    let cache' := updKey st.cache entry.1 fun i => jSet i "reminder_sent" (.bool true)
    { cache := cache', sends := st.sends ++ [html], saves := st.saves ++ [cache'] }
where
  /-- Python `cache[cid]["reminder_sent"] = True`: update the first binding of
  the key in place. -/
  updKey : List (String × Json) → String → (Json → Json) → List (String × Json)
    | [], _, _ => []
    | (k', v) :: t, k, f =>
      if k' = k then (k, f v) :: t else (k', v) :: updKey t k f

/-- The reminder pass: iterate over a snapshot of the cache items, threading
the live cache (`for cid, info in list(cache.items())`). -/
def reminderPass (fetch : Fetch) (sendOk : String → Bool) (now win : Int)
    (cache : List (String × Json)) : PassOut :=
  cache.foldl (reminderStep fetch sendOk now win)
    { cache := cache, sends := [], saves := [] }

/-- The fixed reminder look-ahead window, in seconds
(`timedelta(hours=72)`). -/
def reminderWindowSec : Int := 72 * 3600

/-- What the discovery loop does with one catalog summary: `error` is an
uncaught exception (the loop has no handler, so it kills the run), `ok none`
is a `continue`, and `ok (some _)` carries the new cache key, record, email
body and name of a matched event. -/
def discItem (fetch : Fetch) (nowIso : String) (cache : List (String × Json))
    (ctf : Json) : Except Unit (Option (String × Json × String × Json)) :=
  match pyGetE ctf "id" with
  | .error _ => .error ()
  | .ok idJ =>
    let cid := pyStr idJ
    match pyGetE ctf "slug" with
    | .error _ => .error ()
    | .ok slugJ =>
      if cid.isEmpty || cache.any (fun p => p.1 = cid) then .ok none
      else
        match fetch (pyStr slugJ) with
        | .error _ => .error ()
        | .ok dOpt =>
          let detail := match dOpt with
            | none => Json.null
            | some d => d
          if !truthy detail then .ok none
          else
            match is_free_or_has_token detail with
            | .error _ => .error ()
            | .ok (matched, token) =>
              if matched then
                match build_email_body ctf detail token with
                | .error _ => .error ()
                | .ok html =>
                  match pyGetE ctf "name" with
                  | .error _ => .error ()
                  | .ok name =>
                    match pyGetE ctf "startDate" with
                    | .error _ => .error ()
                    | .ok sC =>
                      match pyGetE detail "starts_at" with
                      | .error _ => .error ()
                      | .ok sD =>
                        let record := Json.obj
                          [("slug", slugJ),
                           ("starts_at", pyOr sC sD),
                           ("checked", .str nowIso),
                           ("reminder_sent", .bool false)]
                        .ok (some (cid, record, html, name))
              else .ok none

/-- Discovery-pass state: `PassOut` plus the `new_ctfs` name list and whether
an uncaught exception has ended the run. -/
structure DiscOut where
  cache : List (String × Json)
  sends : List String
  saves : List (List (String × Json))
  names : List Json
  crashed : Bool
deriving Repr

/-- One iteration of the discovery loop.  A matched event is emailed (result
discarded), inserted at the end of the dict, and the cache saved.  After an
uncaught exception nothing further runs. -/
def discStep (fetch : Fetch) (sendOk : String → Bool) (nowIso : String)
    (st : DiscOut) (ctf : Json) : DiscOut :=
  if st.crashed then st
  else
    match discItem fetch nowIso st.cache ctf with
    | .error _ => { st with crashed := true }
    | .ok none => st
    | .ok (some (cid, record, html, name)) =>
      let _ := sendOk html
      let cache' := st.cache ++ [(cid, record)]
      { cache := cache', sends := st.sends ++ [html],
        saves := st.saves ++ [cache'], names := st.names ++ [name],
        crashed := false }

/-- The discovery pass over the fetched catalog. -/
def discoveryPass (fetch : Fetch) (sendOk : String → Bool) (nowIso : String)
    (catalog : List Json) (cache : List (String × Json)) : DiscOut :=
  catalog.foldl (discStep fetch sendOk nowIso)
    { cache := cache, sends := [], saves := [], names := [], crashed := false }

/-- One whole run of `main` after the cache is loaded: the reminder pass, then
— unless the catalog fetch failed, which only aborts discovery — the
discovery pass starting from the reminder pass's cache. -/
def runCycle (fetch : Fetch) (sendOk : String → Bool) (now : Int)
    (nowIso : String) (catalog : Except Unit (List Json))
    (cache : List (String × Json)) : DiscOut :=
  let r := reminderPass fetch sendOk now reminderWindowSec cache
  match catalog with
  | .error _ =>
    { cache := r.cache, sends := r.sends, saves := r.saves,
      names := [], crashed := false }
  | .ok ctfs =>
    let d := discoveryPass fetch sendOk nowIso ctfs r.cache
    { cache := d.cache, sends := r.sends ++ d.sends,
      saves := r.saves ++ d.saves, names := d.names, crashed := d.crashed }

/-! ### Derived predicates and concrete fixtures used by the theorems -/

/-- Whether a tracking record fires a reminder in the current pass. -/
def remFires (fetch : Fetch) (now win : Int) (info : Json) : Bool :=
  (tryRemind fetch now win info).isSome

/-- Whether `pat` occurs as a contiguous substring of `hay`. -/
def hasSub : List Char → List Char → Bool
  | [], pat => pat.isEmpty
  | hay@(_ :: t), pat => pat.isPrefixOf hay || hasSub t pat

/-- Evidence that a catalog summary passed eligibility classification under
identifier key `k`: its identifier and slug were read, its detail was fetched
(2xx and truthy), and the classifier accepted it. -/
def eligEvidence (fetch : Fetch) (ctf : Json) (k : String) : Prop :=
  ∃ idJ slugJ d tok,
    pyGetE ctf "id" = .ok idJ ∧ pyStr idJ = k ∧
    pyGetE ctf "slug" = .ok slugJ ∧
    fetch (pyStr slugJ) = .ok (some d) ∧ truthy d = true ∧
    is_free_or_has_token d = .ok (true, tok)

/-- Fixture: a public (eligible, `hasCode = 0`) detail record. -/
def exDetail : Json := .obj [("name", .str "TestCTF"), ("hasCode", .num 0)]

/-- Fixture: a fetch oracle that always returns `exDetail`. -/
def exFetchOk : Fetch := fun _ => .ok (some exDetail)

/-- Fixture: a fetch oracle where every detail request gets a non-2xx
status. -/
def exFetch404 : Fetch := fun _ => .ok none

/-- Fixture: a tracking record whose start is 10 hours after `exNow`. -/
def exRec10h : Json :=
  .obj [("slug", .str "s1"), ("starts_at", .str "2025-01-01T10:00:00Z"),
        ("checked", .str "t0"), ("reminder_sent", .bool false)]

/-- Fixture: the reference instant 2025-01-01T00:00:00Z in epoch seconds. -/
def exNow : Int := 1735689600

/-- Fixture: a catalog summary with identifier 5. -/
def exCtf : Json :=
  .obj [("id", .num 5), ("slug", .str "s1"), ("name", .str "TestCTF"),
        ("startDate", .str "2025-01-01T10:00:00Z")]

/-- Fixture: a catalog summary whose identifier is the empty string. -/
def exCtfEmptyId : Json :=
  .obj [("id", .str ""), ("slug", .str "s1"), ("name", .str "X")]

/-- Fixture: the C8 counterexample text — it contains `?code=ABCD1234` and a
labelled token, but its leftmost URL-pattern match is `?token=ZZZZ9999`. -/
def exC8Text : String := "?token=ZZZZ9999 and ?code=ABCD1234 join code: QQQQ1111"

/-- Fixture: a token-gated detail whose description carries a labelled
credential. -/
def exDetailToken : Json :=
  .obj [("hasCode", .num 1), ("description", .str "join code: SECRET99")]

/-! ## Theorems -/

/-- Claim C2: for every detail record, classification is eligible with no
credential when `hasCode` is absent (or null) or equal to false/0; when the
flag equals true/1 it is eligible exactly when a credential is extracted from
the program's concatenation of the five free-text fields (absent fields
contributing the empty string), returning that credential; otherwise it is
not eligible with no credential. -/
theorem c2_classification (kvs : List (String × Json)) :
    (pyInNoneZero (pyGetD (Json.obj kvs) "hasCode") = true →
      is_free_or_has_token (Json.obj kvs) = .ok (true, none)) ∧
    (pyEqOne (pyGetD (Json.obj kvs) "hasCode") = true →
      is_free_or_has_token (Json.obj kvs) =
        .ok (match extract_token_from_text (classifyText (Json.obj kvs)) with
             | some t => (true, some t)
             | none => (false, none))) ∧
    (pyInNoneZero (pyGetD (Json.obj kvs) "hasCode") = false →
      pyEqOne (pyGetD (Json.obj kvs) "hasCode") = false →
      is_free_or_has_token (Json.obj kvs) = .ok (false, none)) := by
  have hdisj : ∀ j : Json, pyInNoneZero j = true → pyEqOne j = false := by
    intro j hj
    cases j with
    | num n => simp [pyInNoneZero] at hj; simp [pyEqOne]; omega
    | bool b => cases b <;> simp_all [pyInNoneZero, pyEqOne]
    | null => simp [pyEqOne]
    | str s => simp [pyEqOne]
    | arr xs => simp [pyEqOne]
    | obj kvs => simp [pyEqOne]
  refine ⟨fun h₀ => ?_, fun h₁ => ?_, fun h₀ h₁ => ?_⟩
  · simp only [pyGetD] at h₀
    simp [is_free_or_has_token, pyGetE, h₀]
  · simp only [pyGetD] at h₁
    have h₀ : pyInNoneZero (lookupD kvs "hasCode") = false := by
      cases hc : pyInNoneZero (lookupD kvs "hasCode")
      · rfl
      · rw [hdisj _ hc] at h₁; exact absurd h₁ (by simp)
    simp only [is_free_or_has_token, pyGetE, h₀, h₁, Bool.false_eq_true,
      if_false, if_true]
    cases h : extract_token_from_text (classifyText (Json.obj kvs)) <;> simp [h]
  · simp only [pyGetD] at h₀ h₁
    simp [is_free_or_has_token, pyGetE, h₀, h₁]

/-- Witness for C2: a token-gated detail with a labelled credential in its
description is classified eligible with that credential. -/
theorem c2_witness :
    is_free_or_has_token exDetailToken = .ok (true, some "SECRET99") := by
  have h := (c2_classification
    [("hasCode", .num 1), ("description", .str "join code: SECRET99")]).2.1 rfl
  exact h.trans (by rfl)

/-- Claim C6: `load_cache` never propagates an error: a missing backing file
and any unparseable file content both yield the empty cache. -/
theorem c6_load_never_fails :
    load_cache none = Json.obj [] ∧
    ∀ s : String, parseTop s.data = none → load_cache (some s) = Json.obj [] := by
  refine ⟨rfl, fun s h => ?_⟩
  simp [load_cache, h]

/-- Witness for C6: the malformed content `{` (an unclosed brace) loads as the
empty cache. -/
theorem c6_witness :
    parseTop "\x7b".data = none ∧ load_cache (some "\x7b") = Json.obj [] :=
  ⟨rfl, c6_load_never_fails.2 "\x7b" rfl⟩

/-- Claim C8 (amended): the URL-query-parameter pattern is tried before the
labelled-token pattern: whenever the URL pattern has a (leftmost) match, the
extractor returns that match, regardless of any labelled-token match in the
text. -/
theorem c8_url_precedence (s : String) (v : List Char)
    (h : urlSearch s.data = some v) :
    extract_token_from_text s = some (String.mk v) := by
  have hne : s.isEmpty = false := by
    cases hs : s.isEmpty
    · rfl
    · exfalso
      have : s = "" := (String.isEmpty_iff _).mp hs
      rw [this] at h
      simp [urlSearch, searchWith] at h
  simp [extract_token_from_text, hne, h, Option.orElse]

/-- Witness for C8: on the fixture text the URL pattern matches `ZZZZ9999`
first and extraction returns it. -/
theorem c8_witness :
    urlSearch exC8Text.data = some "ZZZZ9999".data ∧
    extract_token_from_text exC8Text = some "ZZZZ9999" := by
  refine ⟨by rfl, ?_⟩
  have h := c8_url_precedence exC8Text "ZZZZ9999".data (by rfl)
  exact h.trans (by rfl)

/-- Counterexample for C8 as stated: the fixture text contains
`?code=ABCD1234` (and a labelled token elsewhere), yet extraction returns
`ZZZZ9999` — the value of the leftmost URL-pattern match — not `ABCD1234`. -/
theorem c8_counterexample :
    hasSub exC8Text.data "?code=ABCD1234".data = true ∧
    extract_token_from_text exC8Text = some "ZZZZ9999" ∧
    ("ZZZZ9999" : String) ≠ "ABCD1234" := by
  refine ⟨by rfl, by rfl, by decide⟩

/-- Counterexample for C9 as stated: the truthy but unparseable input
`"not-a-date"` is echoed back unchanged by `format_datetime`'s `except`
fallback — it is neither rendered in the fixed form nor replaced by
`Unknown`. -/
theorem c9_counterexample :
    format_datetime (Json.str "not-a-date") = Json.str "not-a-date" ∧
    Json.str "not-a-date" ≠ Json.str "Unknown" := by
  refine ⟨by rfl, fun h => ?_⟩
  exact absurd (Json.str.inj h) (by decide)

/-- Claim C9 (amended): falsy inputs (including `None` and the empty string)
render as the literal `Unknown`; an input parseable as ISO-8601 renders via
the fixed `"%Y-%m-%d %H:%M UTC"` pattern applied to its stored clock fields —
the UTC offset is ignored, so a non-UTC input is rendered with its local
fields labelled `UTC`, not converted; a truthy input the parser rejects is
echoed back unchanged. -/
theorem c9_format_datetime :
    format_datetime Json.null = Json.str "Unknown" ∧
    format_datetime (Json.str "") = Json.str "Unknown" ∧
    (∀ s f, parseISO s = some f →
      format_datetime (Json.str s) = Json.str (strftimeUTC f)) ∧
    (∀ f off, strftimeUTC { f with offsetMin := off } = strftimeUTC f) ∧
    (∀ s : String, s ≠ "" → parseISO s = none →
      format_datetime (Json.str s) = Json.str s) := by
  refine ⟨rfl, rfl, fun s f h => ?_, fun f off => rfl, fun s hs h => ?_⟩
  · have hne : s.isEmpty = false := by
      cases he : s.isEmpty
      · rfl
      · rw [(String.isEmpty_iff _).mp he] at h; simp [parseISO, readDigits] at h
    simp [format_datetime, truthy, hne, h]
  · have hne : s.isEmpty = false := by
      cases he : s.isEmpty
      · rfl
      · exact absurd ((String.isEmpty_iff _).mp he) hs
    simp [format_datetime, truthy, hne, h]

/-- Witness for C9: an input carrying the offset `+05:00` renders its local
clock fields `05:06` with the `UTC` label, unconverted. -/
theorem c9_witness :
    format_datetime (Json.str "2025-03-04T05:06:00+05:00") =
      Json.str "2025-03-04 05:06 UTC" := by
  have h := c9_format_datetime.2.2.1 "2025-03-04T05:06:00+05:00"
    ⟨2025, 3, 4, 5, 6, 0, some 300⟩ (by rfl)
  exact h.trans (by rfl)

/-- A value `str()`s to the empty string exactly when it is the empty
string. -/
theorem pyStr_empty_iff (j : Json) : pyStr j = "" ↔ j = Json.str "" := by
  have hnat : ∀ n : Nat, (natStr n).data ≠ [] := by
    intro n
    unfold natStr
    split
    · decide
    · next hn =>
      cases n with
      | zero => exact absurd rfl hn
      | succ m => simp [natDigs, natDigsF, String.mk]
  have hint : ∀ n : Int, (intStr n).data ≠ [] := by
    intro n
    unfold intStr
    split
    · simp [String.append]
    · exact hnat _
  have hdata : ∀ s t : String, s = t ↔ s.data = t.data := by
    intro s t
    constructor
    · intro h; rw [h]
    · intro h; cases s; cases t; exact congrArg String.mk h
  cases j with
  | null => simp [pyStr]
  | bool b => cases b <;> simp [pyStr]
  | num n =>
    simp only [pyStr]
    constructor
    · intro h
      exact absurd ((hdata _ _).mp h) (hint n)
    · intro h
      cases h
  | str s => simp [pyStr]
  | arr xs =>
    simp only [pyStr]
    constructor
    · intro h
      have := (hdata _ _).mp h
      simp [String.append] at this
    · intro h
      cases h
  | obj kvs =>
    simp only [pyStr]
    constructor
    · intro h
      have := (hdata _ _).mp h
      simp [String.append] at this
    · intro h
      cases h

/-- Claim C10 (amended): the discovery key is `str()` of the summary's id,
which is `"None"` when the id is absent or null — so all id-less summaries
collide on the single key `"None"` — and is empty exactly when the id is
itself the empty string, which is therefore the only way the
missing-identifier guard can fire. -/
theorem c10_discovery_key (kvs : List (String × Json)) :
    (lookupD kvs "id" = Json.null →
      pyStr (pyGetD (Json.obj kvs) "id") = "None") ∧
    (pyStr (pyGetD (Json.obj kvs) "id") = "" ↔ lookupD kvs "id" = Json.str "") ∧
    (lookupD kvs "id" = Json.str "" →
      ∀ (fetch : Fetch) (nowIso : String) (cache : List (String × Json)),
        discItem fetch nowIso cache (Json.obj kvs) = .ok none) := by
  refine ⟨fun h => ?_, ?_, fun h fetch nowIso cache => ?_⟩
  · simp [pyGetD, h, pyStr]
  · simpa [pyGetD] using pyStr_empty_iff (lookupD kvs "id")
  · have hcid : (pyStr (lookupD kvs "id")).isEmpty = true := by rw [h]; rfl
    simp [discItem, pyGetE, hcid]

/-- Witness for C10 (amended): a summary whose id is stored as the empty
string is skipped by the guard. -/
theorem c10_witness :
    discItem exFetchOk "t0" [] exCtfEmptyId = .ok none := by
  have h := (c10_discovery_key
    [("id", .str ""), ("slug", .str "s1"), ("name", .str "X")]).2.2
    rfl exFetchOk "t0" []
  exact h

/-- Counterexample for C10 as stated: the guard is reachable — a summary whose
id is the empty string is skipped by it (no fetch, no record, no send), even
though its detail is eligible under the fixture fetch oracle. -/
theorem c10_counterexample :
    pyStr (pyGetD exCtfEmptyId "id") = "" ∧
    (discoveryPass exFetchOk (fun _ => true) "t0" [exCtfEmptyId] []).cache = [] ∧
    (discoveryPass exFetchOk (fun _ => true) "t0" [exCtfEmptyId] []).sends = [] ∧
    is_free_or_has_token exDetail = .ok (true, none) :=
  ⟨rfl, rfl, rfl, rfl⟩

/-- One reminder step preserves "as many sends as saves". -/
theorem reminderStep_balance (fetch : Fetch) (o : String → Bool) (now win : Int)
    (st : PassOut) (e : String × Json)
    (h : st.sends.length = st.saves.length) :
    (reminderStep fetch o now win st e).sends.length =
      (reminderStep fetch o now win st e).saves.length := by
  unfold reminderStep
  cases tryRemind fetch now win e.2 with
  | none => exact h
  | some html => simp [h]

/-- The reminder pass appends one save for every send. -/
theorem reminder_sends_saves (fetch : Fetch) (o : String → Bool) (now win : Int) :
    ∀ (l : List (String × Json)) (st : PassOut),
      st.sends.length = st.saves.length →
      (List.foldl (reminderStep fetch o now win) st l).sends.length =
        (List.foldl (reminderStep fetch o now win) st l).saves.length := by
  intro l
  induction l with
  | nil => intro st h; exact h
  | cons e t ih =>
    intro st h
    exact ih _ (reminderStep_balance fetch o now win st e h)

/-- One discovery step preserves "as many sends as saves". -/
theorem discStep_balance (fetch : Fetch) (o : String → Bool) (nowIso : String)
    (st : DiscOut) (e : Json)
    (h : st.sends.length = st.saves.length) :
    (discStep fetch o nowIso st e).sends.length =
      (discStep fetch o nowIso st e).saves.length := by
  unfold discStep
  by_cases hc : st.crashed = true
  · simpa [hc] using h
  · simp only [Bool.not_eq_true] at hc
    simp only [hc, Bool.false_eq_true, if_false]
    cases discItem fetch nowIso st.cache e with
    | error u => exact h
    | ok r =>
      cases r with
      | none => exact h
      | some out => simp [h]

/-- The discovery pass appends one save for every send. -/
theorem discovery_sends_saves (fetch : Fetch) (o : String → Bool) (nowIso : String) :
    ∀ (l : List Json) (st : DiscOut),
      st.sends.length = st.saves.length →
      (List.foldl (discStep fetch o nowIso) st l).sends.length =
        (List.foldl (discStep fetch o nowIso) st l).saves.length := by
  intro l
  induction l with
  | nil => intro st h; exact h
  | cons e t ih =>
    intro st h
    exact ih _ (discStep_balance fetch o nowIso st e h)

/-- Claim C1 (amended): in both passes the result of `send_email` is
discarded — the run's outcome (cache, sends, saves) is identical whatever the
send oracle answers — and every send is followed by exactly one persist, so a
failed send does not prevent the mutation from being persisted (a failed
reminder send is therefore not retried: `reminder_sent` is set and saved
regardless). -/
theorem c1_send_persist (fetch : Fetch) (o₁ o₂ : String → Bool) (now win : Int)
    (nowIso : String) (cache : List (String × Json)) (catalog : List Json) :
    reminderPass fetch o₁ now win cache = reminderPass fetch o₂ now win cache ∧
    discoveryPass fetch o₁ nowIso catalog cache =
      discoveryPass fetch o₂ nowIso catalog cache ∧
    (reminderPass fetch o₁ now win cache).sends.length =
      (reminderPass fetch o₁ now win cache).saves.length ∧
    (discoveryPass fetch o₁ nowIso catalog cache).sends.length =
      (discoveryPass fetch o₁ nowIso catalog cache).saves.length := by
  refine ⟨rfl, rfl, ?_, ?_⟩
  · exact reminder_sends_saves fetch o₁ now win cache
      { cache := cache, sends := [], saves := [] } rfl
  · exact discovery_sends_saves fetch o₁ nowIso catalog
      { cache := cache, sends := [], saves := [], names := [], crashed := false } rfl

/-- Witness for C1 (amended): trivial instantiation at the fixtures. -/
theorem c1_witness :
    (reminderPass exFetchOk (fun _ => false) exNow reminderWindowSec
        [("7", exRec10h)]).sends.length =
      (reminderPass exFetchOk (fun _ => false) exNow reminderWindowSec
        [("7", exRec10h)]).saves.length :=
  (c1_send_persist exFetchOk (fun _ => false) (fun _ => true) exNow
    reminderWindowSec "t0" [("7", exRec10h)] []).2.2.1

/-- Counterexample for C1 as stated: with a send oracle that always fails,
the due record's `reminder_sent` is still set to true and the mutated cache
is still persisted (one save recorded), so a failed reminder send is not
retried on the next run. -/
theorem c1_counterexample :
    (reminderPass exFetchOk (fun _ => false) exNow reminderWindowSec
        [("7", exRec10h)]).sends.length = 1 ∧
    (reminderPass exFetchOk (fun _ => false) exNow reminderWindowSec
        [("7", exRec10h)]).cache =
      [("7", jSet exRec10h "reminder_sent" (.bool true))] ∧
    (reminderPass exFetchOk (fun _ => false) exNow reminderWindowSec
        [("7", exRec10h)]).saves =
      [[("7", jSet exRec10h "reminder_sent" (.bool true))]] :=
  ⟨rfl, rfl, rfl⟩

/-- `updKey` leaves everything before the key alone when the key is not
there. -/
theorem updKey_append (A B : List (String × Json)) (k : String) (f : Json → Json)
    (h : k ∉ A.map Prod.fst) :
    reminderStep.updKey (A ++ B) k f = A ++ reminderStep.updKey B k f := by
  induction A with
  | nil => rfl
  | cons a t ih =>
    obtain ⟨k', v'⟩ := a
    simp only [List.map_cons, List.mem_cons] at h
    push_neg at h
    have hne : ¬ (k' = k) := fun hh => h.1 hh.symm
    simp only [List.cons_append, reminderStep.updKey, if_neg hne, ih h.2,
      List.append_eq]

/-- `updKey` at the head. -/
theorem updKey_cons_self (k : String) (v : Json) (t : List (String × Json))
    (f : Json → Json) :
    reminderStep.updKey ((k, v) :: t) k f = (k, f v) :: t := by
  simp [reminderStep.updKey]

/-- Cache shape of the reminder pass: with distinct keys, the threaded
in-place updates amount to a pointwise map that flips `reminder_sent` on
exactly the firing records. -/
theorem rem_fold_cache (fetch : Fetch) (o : String → Bool) (now win : Int) :
    ∀ (l A : List (String × Json)) (sends : List String)
      (saves : List (List (String × Json))),
      ((A ++ l).map Prod.fst).Nodup →
      (List.foldl (reminderStep fetch o now win)
          { cache := A ++ l, sends := sends, saves := saves } l).cache =
        A ++ l.map (fun e =>
          if remFires fetch now win e.2
          then (e.1, jSet e.2 "reminder_sent" (.bool true)) else e) := by
  intro l
  induction l with
  | nil => intro A sends saves _; simp
  | cons e t ih =>
    intro A sends saves hnd
    obtain ⟨k, v⟩ := e
    have hstep : reminderStep fetch o now win
        { cache := A ++ (k, v) :: t, sends := sends, saves := saves } (k, v) =
        if remFires fetch now win v
        then { cache := (A ++ [(k, jSet v "reminder_sent" (.bool true))]) ++ t,
               sends := sends ++ [(tryRemind fetch now win v).getD ""],
               saves := saves ++
                 [(A ++ [(k, jSet v "reminder_sent" (.bool true))]) ++ t] }
        else { cache := A ++ (k, v) :: t, sends := sends, saves := saves } := by
      have hkA : k ∉ A.map Prod.fst := by
        have := hnd
        simp only [List.map_append, List.nodup_append] at this
        intro hk
        exact this.2.2 hk (by simp)
      unfold reminderStep
      cases h : tryRemind fetch now win v with
      | none => simp [remFires, h]
      | some html =>
        simp only [remFires, h, Option.isSome_some, if_true, Option.getD_some]
        rw [updKey_append A ((k, v) :: t) k _ hkA, updKey_cons_self]
        simp
    simp only [List.foldl_cons, hstep]
    cases h : remFires fetch now win v with
    | false =>
      simp only [Bool.false_eq_true, if_false]
      have h2 := ih (A ++ [(k, v)]) sends saves (by simpa using hnd)
      simp only [List.append_assoc, List.singleton_append] at h2
      simp [h2, h]
    | true =>
      simp only [if_true]
      have hnd' : (((A ++ [(k, jSet v "reminder_sent" (.bool true))]) ++ t).map
          Prod.fst).Nodup := by
        simpa using hnd
      have h2 := ih (A ++ [(k, jSet v "reminder_sent" (.bool true))])
        (sends ++ [(tryRemind fetch now win v).getD ""])
        (saves ++ [A ++ [(k, jSet v "reminder_sent" (.bool true))] ++ t]) hnd'
      simp only [List.append_assoc, List.singleton_append] at h2 ⊢
      simp [h2, h]

/-- Sends of the reminder pass: one body per firing record, in order; the
firing decision reads only the snapshot of each record, never the threaded
cache. -/
theorem rem_fold_sends (fetch : Fetch) (o : String → Bool) (now win : Int) :
    ∀ (l : List (String × Json)) (st : PassOut),
      (List.foldl (reminderStep fetch o now win) st l).sends =
        st.sends ++ (l.filter (fun e => remFires fetch now win e.2)).map
          (fun e => (tryRemind fetch now win e.2).getD "") := by
  intro l
  induction l with
  | nil => intro st; simp
  | cons e t ih =>
    intro st
    simp only [List.foldl_cons]
    rw [ih]
    unfold reminderStep
    cases h : tryRemind fetch now win e.2 with
    | none => simp [List.filter_cons, remFires, h]
    | some html => simp [List.filter_cons, remFires, h]

/-- `setKey` binds the key it sets. -/
theorem lookupD_setKey_self (kvs : List (String × Json)) (k : String) (v : Json) :
    lookupD (jSet.setKey kvs k v) k = v := by
  induction kvs with
  | nil => simp [jSet.setKey, lookupD]
  | cons a t ih =>
    obtain ⟨k', v'⟩ := a
    by_cases h : k' = k
    · simp [jSet.setKey, h, lookupD]
    · simp [jSet.setKey, h, lookupD, ih]

/-- `setKey` leaves other keys alone. -/
theorem lookupD_setKey_ne (kvs : List (String × Json)) (k k' : String) (v : Json)
    (h : k' ≠ k) : lookupD (jSet.setKey kvs k v) k' = lookupD kvs k' := by
  induction kvs with
  | nil =>
    simp only [jSet.setKey, lookupD]
    rw [if_neg (fun hh => h hh.symm)]
  | cons a t ih =>
    obtain ⟨k₀, v₀⟩ := a
    by_cases h₀ : k₀ = k
    · subst h₀
      simp only [jSet.setKey, if_pos rfl, lookupD]
      rw [if_neg (fun hh => h hh.symm), if_neg (fun hh => h hh.symm)]
    · simp only [jSet.setKey, if_neg h₀, lookupD]
      by_cases h₁ : k₀ = k'
      · rw [if_pos h₁, if_pos h₁]
      · rw [if_neg h₁, if_neg h₁, ih]

/-- A record whose `reminder_sent` has been set to true never fires again,
under any oracle, time or window. -/
theorem remFires_after_set (fetch' : Fetch) (now' win' : Int) (info : Json) :
    remFires fetch' now' win' (jSet info "reminder_sent" (.bool true)) = false := by
  cases info with
  | obj kvs =>
    unfold remFires tryRemind
    simp only [jSet, pyGetE]
    repeat' split
    all_goals simp_all [lookupD_setKey_self, truthy]
  | null => rfl
  | bool b => rfl
  | num n => rfl
  | str s => rfl
  | arr xs => rfl

/-- A successful `.get` determines the dict lookup. -/
theorem pyGetD_of_pyGetE (info : Json) (k : String) (v : Json)
    (h : pyGetE info k = .ok v) : pyGetD info k = v := by
  cases info <;> simp [pyGetE] at h <;> simp [pyGetD, h]

/-- Unfolding of the reminder firing condition: a record fires exactly when
its stored start time is a string parseable to an aware instant, its
`reminder_sent` is falsy, the remaining time is inside `[0, win]`, its slug is
present, and the detail fetch returns a truthy dict (so that the body's
`detail.get` succeeds). -/
theorem remFires_iff (fetch : Fetch) (now win : Int) (info : Json) :
    remFires fetch now win info = true ↔
      ∃ s t slugJ d,
        pyGetE info "starts_at" = .ok (.str s) ∧
        parseDateAware s = some t ∧
        truthy (pyGetD info "reminder_sent") = false ∧
        0 ≤ t - now ∧ t - now ≤ win ∧
        pyGetIdx info "slug" = .ok slugJ ∧
        fetch (pyStr slugJ) = .ok (some d) ∧
        truthy d = true ∧
        (∃ nmJ, pyGetE d "name" = .ok nmJ) := by
  constructor
  · intro h
    unfold remFires tryRemind at h
    cases h₁ : pyGetE info "starts_at" with
    | error u => simp [h₁] at h
    | ok sj =>
      simp only [h₁] at h
      cases h₂ : asStr sj with
      | none => simp [h₂] at h
      | some s =>
        simp only [h₂] at h
        have hsj : sj = .str s := by
          cases sj <;> simp [asStr] at h₂ <;> simp [h₂]
        rw [hsj] at h₁
        cases h₃ : parseDateAware s with
        | none => simp [h₃] at h
        | some t =>
          simp only [h₃] at h
          cases h₄ : pyGetE info "reminder_sent" with
          | error u => simp [h₄] at h
          | ok rs =>
            simp only [h₄] at h
            have hrsd := pyGetD_of_pyGetE info "reminder_sent" rs h₄
            split at h
            case isFalse => simp at h
            case isTrue hcond =>
              simp only [Bool.and_eq_true, Bool.not_eq_true', decide_eq_true_eq] at hcond
              obtain ⟨⟨hrs, hge⟩, hle⟩ := hcond
              cases h₆ : pyGetIdx info "slug" with
              | error u => simp [h₆] at h
              | ok slugJ =>
                simp only [h₆] at h
                cases h₇ : fetch (pyStr slugJ) with
                | error u => simp [h₇] at h
                | ok dOpt =>
                  simp only [h₇] at h
                  cases dOpt with
                  | none => simp at h
                  | some d =>
                    cases h₈ : truthy d with
                    | false => simp [h₈] at h
                    | true =>
                      simp only [h₈, if_true] at h
                      cases h₉ : pyGetE d "name" with
                      | error u => simp [h₉] at h
                      | ok nmJ =>
                        exact ⟨s, t, slugJ, d, congrArg Except.ok hsj, h₃,
                          hrsd ▸ hrs, hge, hle, rfl, h₇, h₈, nmJ, h₉⟩
  · rintro ⟨s, t, slugJ, d, h₁, h₃, hrs, hge, hle, h₆, h₇, h₈, nmJ, h₉⟩
    have h₄ : pyGetE info "reminder_sent" = .ok (pyGetD info "reminder_sent") := by
      cases info <;> simp [pyGetE] at h₁ ⊢ <;> simp [pyGetD]
    have hcond : (!truthy (pyGetD info "reminder_sent") &&
        decide (0 ≤ t - now) && decide (t - now ≤ win)) = true := by
      simp [hrs, hge, hle]
    unfold remFires tryRemind
    simp only [h₁, asStr, h₃, h₄, hcond, if_true, h₆, h₇, h₈, h₉,
      Option.isSome_some]

/-- Claim C3 (amended): over a cache with distinct keys, the reminder pass
(a) flips `reminder_sent` on exactly the records that fire and leaves every
other record unchanged, (b) sends exactly one reminder per firing record, and
(c) a record fires exactly when its stored start time parses to an aware
instant, `reminder_sent` is falsy, the remaining time lies in [0, 72h], its
slug is present, **and the detail fetch returns a truthy record** — on fetch
failure nothing is sent or persisted, so the record is retried next run; (d) a
flipped record never fires again under any oracle, time or window, so a
subsequent run does not re-fire it. -/
theorem c3_reminder_firing (fetch : Fetch) (o : String → Bool) (now : Int)
    (cache : List (String × Json)) (hnd : (cache.map Prod.fst).Nodup) :
    (reminderPass fetch o now reminderWindowSec cache).cache =
      cache.map (fun e =>
        if remFires fetch now reminderWindowSec e.2
        then (e.1, jSet e.2 "reminder_sent" (.bool true)) else e) ∧
    (reminderPass fetch o now reminderWindowSec cache).sends.length =
      (cache.filter (fun e => remFires fetch now reminderWindowSec e.2)).length ∧
    (∀ (fetch' : Fetch) (now' win' : Int) (info : Json),
      remFires fetch' now' win' (jSet info "reminder_sent" (.bool true)) = false) ∧
    (∀ info : Json, remFires fetch now reminderWindowSec info = true ↔
      ∃ s t slugJ d,
        pyGetE info "starts_at" = .ok (.str s) ∧
        parseDateAware s = some t ∧
        truthy (pyGetD info "reminder_sent") = false ∧
        0 ≤ t - now ∧ t - now ≤ reminderWindowSec ∧
        pyGetIdx info "slug" = .ok slugJ ∧
        fetch (pyStr slugJ) = .ok (some d) ∧
        truthy d = true ∧
        (∃ nmJ, pyGetE d "name" = .ok nmJ)) := by
  refine ⟨?_, ?_, remFires_after_set, fun info => remFires_iff fetch now _ info⟩
  · have h := rem_fold_cache fetch o now reminderWindowSec cache [] [] []
      (by simpa using hnd)
    simpa [reminderPass] using h
  · have h := rem_fold_sends fetch o now reminderWindowSec cache
      { cache := cache, sends := [], saves := [] }
    simp only [reminderPass, h]
    simp

/-- Witness for C3: the fixture record 10 hours before start fires exactly
once under a successful fetch, and the resulting record has `reminder_sent`
true. -/
theorem c3_witness :
    (reminderPass exFetchOk (fun _ => true) exNow reminderWindowSec
        [("7", exRec10h)]).sends.length = 1 ∧
    (reminderPass exFetchOk (fun _ => true) exNow reminderWindowSec
        [("7", exRec10h)]).cache =
      [("7", jSet exRec10h "reminder_sent" (.bool true))] := by
  have h := c3_reminder_firing exFetchOk (fun _ => true) exNow
    [("7", exRec10h)] (by simp)
  exact ⟨h.2.1.trans (by rfl), h.1.trans (by rfl)⟩

/-- Counterexample for C3 as stated: a record 10 hours before start with
`reminder_sent` false — squarely inside the claimed firing condition — sends
no reminder when the detail fetch returns a non-2xx status, and its record is
left unchanged. -/
theorem c3_counterexample :
    pyGetE exRec10h "starts_at" = .ok (.str "2025-01-01T10:00:00Z") ∧
    parseDateAware "2025-01-01T10:00:00Z" = some (exNow + 36000) ∧
    truthy (pyGetD exRec10h "reminder_sent") = false ∧
    ((0 : Int) ≤ 36000 ∧ (36000 : Int) ≤ reminderWindowSec) ∧
    (reminderPass exFetch404 (fun _ => true) exNow reminderWindowSec
        [("7", exRec10h)]).sends = [] ∧
    (reminderPass exFetch404 (fun _ => true) exNow reminderWindowSec
        [("7", exRec10h)]).cache = [("7", exRec10h)] := by
  exact ⟨rfl, by rfl, rfl, by constructor <;> decide, rfl, rfl⟩

/-- `updKey` never changes the key sequence. -/
theorem updKey_keys (l : List (String × Json)) (k : String) (f : Json → Json) :
    (reminderStep.updKey l k f).map Prod.fst = l.map Prod.fst := by
  induction l with
  | nil => rfl
  | cons a t ih =>
    obtain ⟨k', v⟩ := a
    by_cases h : k' = k
    · subst h; simp [reminderStep.updKey]
    · simp [reminderStep.updKey, h, ih]

/-- The reminder pass never adds or removes a cache key. -/
theorem reminderPass_keys (fetch : Fetch) (o : String → Bool) (now win : Int) :
    ∀ (l : List (String × Json)) (st : PassOut),
      (List.foldl (reminderStep fetch o now win) st l).cache.map Prod.fst =
        st.cache.map Prod.fst := by
  intro l
  induction l with
  | nil => intro st; rfl
  | cons e t ih =>
    intro st
    rw [List.foldl_cons, ih]
    unfold reminderStep
    cases tryRemind fetch now win e.2 with
    | none => rfl
    | some html => simp [updKey_keys]

/-- Inversion of a matched discovery item: it provides exactly the evidence
that the identifier passed eligibility classification. -/
theorem discItem_inv (fetch : Fetch) (nowIso : String)
    (cache : List (String × Json)) (ctf : Json) (cid : String) (record : Json)
    (html : String) (name : Json)
    (h : discItem fetch nowIso cache ctf = .ok (some (cid, record, html, name))) :
    eligEvidence fetch ctf cid := by
  unfold discItem at h
  cases h₁ : pyGetE ctf "id" with
  | error u => simp [h₁] at h
  | ok idJ =>
    simp only [h₁] at h
    cases h₂ : pyGetE ctf "slug" with
    | error u => simp [h₂] at h
    | ok slugJ =>
      simp only [h₂] at h
      split at h
      · simp at h
      · cases h₃ : fetch (pyStr slugJ) with
        | error u => simp [h₃] at h
        | ok dOpt =>
          simp only [h₃] at h
          cases dOpt with
          | none => simp [truthy] at h
          | some d =>
            cases h₄ : truthy d with
            | false => simp [h₄] at h
            | true =>
              simp only [h₄, Bool.not_true, Bool.false_eq_true, if_false] at h
              cases h₅ : is_free_or_has_token d with
              | error u => simp [h₅] at h
              | ok p =>
                obtain ⟨matched, token⟩ := p
                simp only [h₅] at h
                cases matched with
                | false => simp at h
                | true =>
                  simp only [if_true] at h
                  cases h₆ : build_email_body ctf d token with
                  | error u => simp [h₆] at h
                  | ok html' =>
                    simp only [h₆] at h
                    cases h₇ : pyGetE ctf "name" with
                    | error u => simp [h₇] at h
                    | ok nm =>
                      simp only [h₇] at h
                      cases h₈ : pyGetE ctf "startDate" with
                      | error u => simp [h₈] at h
                      | ok sC =>
                        simp only [h₈] at h
                        cases h₉ : pyGetE d "starts_at" with
                        | error u => simp [h₉] at h
                        | ok sD =>
                          simp only [h₉] at h
                          simp only [Except.ok.injEq, Option.some.injEq,
                            Prod.mk.injEq] at h
                          exact ⟨idJ, slugJ, d, token, h₁, h.1, h₂, h₃, h₄, h₅⟩

/-- Fold invariant of the discovery loop: a key of the final cache was there
at the start or belongs to a summary that passed classification. -/
theorem disc_fold_inv (fetch : Fetch) (o : String → Bool) (nowIso : String) :
    ∀ (l : List Json) (st : DiscOut) (k : String),
      k ∈ (List.foldl (discStep fetch o nowIso) st l).cache.map Prod.fst →
      k ∈ st.cache.map Prod.fst ∨ ∃ ctf ∈ l, eligEvidence fetch ctf k := by
  intro l
  induction l with
  | nil => intro st k h; exact Or.inl h
  | cons e t ih =>
    intro st k h
    rw [List.foldl_cons] at h
    rcases ih _ k h with h' | ⟨ctf, hmem, hev⟩
    · unfold discStep at h'
      by_cases hc : st.crashed = true
      · rw [if_pos hc] at h'
        exact Or.inl h'
      · rw [if_neg hc] at h'
        cases hd : discItem fetch nowIso st.cache e with
        | error u => rw [hd] at h'; exact Or.inl h'
        | ok r =>
          cases r with
          | none => rw [hd] at h'; exact Or.inl h'
          | some out =>
            obtain ⟨cid, record, html, name⟩ := out
            rw [hd] at h'
            simp only [List.map_append, List.mem_append, List.map_cons,
              List.map_nil, List.mem_singleton] at h'
            rcases h' with h' | h'
            · exact Or.inl h'
            · subst h'
              exact Or.inr ⟨e, by simp,
                discItem_inv fetch nowIso st.cache e _ record html name hd⟩
    · exact Or.inr ⟨ctf, by simp [hmem], hev⟩

/-- Key sequence of the whole reminder pass. -/
theorem reminderPass_keys_eq (fetch : Fetch) (o : String → Bool) (now win : Int)
    (c : List (String × Json)) :
    (reminderPass fetch o now win c).cache.map Prod.fst = c.map Prod.fst := by
  unfold reminderPass
  exact reminderPass_keys fetch o now win c { cache := c, sends := [], saves := [] }

/-- Claim C4: after one whole run, a TrackingRecord exists only for
identifiers that were already tracked or whose detail passed eligibility
classification during the run; an identifier classified ineligible (or whose
detail fetch failed) never gains a record. -/
theorem c4_tracking_invariant (fetch : Fetch) (o : String → Bool) (now : Int)
    (nowIso : String) (catalog : Except Unit (List Json))
    (c₀ : List (String × Json)) (k : String)
    (h : k ∈ (runCycle fetch o now nowIso catalog c₀).cache.map Prod.fst) :
    k ∈ c₀.map Prod.fst ∨
      ∃ l ctf, catalog = .ok l ∧ ctf ∈ l ∧ eligEvidence fetch ctf k := by
  unfold runCycle at h
  cases catalog with
  | error u =>
    left
    simp only at h
    rwa [reminderPass_keys_eq fetch o now reminderWindowSec c₀] at h
  | ok ctfs =>
    simp only at h
    rcases disc_fold_inv fetch o nowIso ctfs _ k h with h' | ⟨ctf, hm, hev⟩
    · left
      simp only at h'
      rwa [reminderPass_keys_eq fetch o now reminderWindowSec c₀] at h'
    · exact Or.inr ⟨ctfs, ctf, rfl, hm, hev⟩

/-- Witness for C4: the fixture summary with id 5 gains a record during the
run, and the invariant locates the classification evidence for it. -/
theorem c4_witness :
    "5" ∈ ([] : List (String × Json)).map Prod.fst ∨
      ∃ l ctf, (Except.ok [exCtf] : Except Unit (List Json)) = .ok l ∧
        ctf ∈ l ∧ eligEvidence exFetchOk ctf "5" := by
  apply c4_tracking_invariant exFetchOk (fun _ => true) exNow "t0"
    (.ok [exCtf]) [] "5"
  have e : (runCycle exFetchOk (fun _ => true) exNow "t0"
      (.ok [exCtf]) []).cache.map Prod.fst = ["5"] := by rfl
  rw [e]
  simp

/-- Once the discovery loop has crashed, nothing further changes. -/
theorem disc_fold_crashed (fetch : Fetch) (o : String → Bool) (n : String) :
    ∀ (l : List Json) (st : DiscOut), st.crashed = true →
      List.foldl (discStep fetch o n) st l = st := by
  intro l
  induction l with
  | nil => intro st _; rfl
  | cons e t ih =>
    intro st h
    rw [List.foldl_cons]
    have : discStep fetch o n st e = st := by
      unfold discStep
      rw [if_pos h]
    rw [this]
    exact ih st h

/-- Discovery only ever appends cache keys. -/
theorem disc_fold_keys_mono (fetch : Fetch) (o : String → Bool) (n : String) :
    ∀ (l : List Json) (st : DiscOut) (k : String),
      k ∈ st.cache.map Prod.fst →
      k ∈ (List.foldl (discStep fetch o n) st l).cache.map Prod.fst := by
  intro l
  induction l with
  | nil => intro st k h; exact h
  | cons e t ih =>
    intro st k h
    rw [List.foldl_cons]
    apply ih
    unfold discStep
    by_cases hc : st.crashed = true
    · rwa [if_pos hc]
    · rw [if_neg hc]
      cases discItem fetch n st.cache e with
      | error u => exact h
      | ok r =>
        cases r with
        | none => exact h
        | some out => simp [h]

/-- A skipped summary stays skipped against any cache with at least the same
keys, at any timestamp. -/
theorem discItem_skip_stable (fetch : Fetch) (n₁ n₂ : String)
    (c c' : List (String × Json)) (ctf : Json)
    (hsub : ∀ k, k ∈ c.map Prod.fst → k ∈ c'.map Prod.fst)
    (h : discItem fetch n₁ c ctf = .ok none) :
    discItem fetch n₂ c' ctf = .ok none := by
  unfold discItem at h ⊢
  cases h₁ : pyGetE ctf "id" with
  | error u => simp [h₁] at h
  | ok idJ =>
    simp only [h₁] at h ⊢
    cases h₂ : pyGetE ctf "slug" with
    | error u => simp [h₂] at h
    | ok slugJ =>
      simp only [h₂] at h ⊢
      by_cases hg : ((pyStr idJ).isEmpty ||
          c'.any (fun p => decide (p.1 = pyStr idJ))) = true
      · rw [if_pos hg]
      · rw [if_neg hg]
        have hg₀ : ((pyStr idJ).isEmpty ||
            c.any (fun p => decide (p.1 = pyStr idJ))) = false := by
          cases hgc : ((pyStr idJ).isEmpty ||
              c.any (fun p => decide (p.1 = pyStr idJ))) with
          | false => rfl
          | true =>
            exfalso
            apply hg
            simp only [Bool.or_eq_true, List.any_eq_true,
              decide_eq_true_eq] at hgc ⊢
            rcases hgc with hgc | ⟨p, hp, hpk⟩
            · exact Or.inl hgc
            · right
              have : pyStr idJ ∈ c.map Prod.fst := by
                exact hpk ▸ List.mem_map_of_mem Prod.fst hp
              have := hsub _ this
              simp only [List.mem_map] at this
              obtain ⟨q, hq, hqk⟩ := this
              exact ⟨q, hq, hqk⟩
        rw [if_neg (by simp [hg₀])] at h
        cases h₃ : fetch (pyStr slugJ) with
        | error u => simp [h₃] at h
        | ok dOpt =>
          simp only [h₃] at h ⊢
          cases dOpt with
          | none => simp [truthy] at h ⊢
          | some d =>
            cases h₄ : truthy d with
            | false => simp [h₄]
            | true =>
              simp only [h₄, Bool.not_true, Bool.false_eq_true, if_false] at h ⊢
              cases h₅ : is_free_or_has_token d with
              | error u => simp [h₅] at h
              | ok p =>
                obtain ⟨matched, token⟩ := p
                simp only [h₅] at h ⊢
                cases matched with
                | false => simp
                | true =>
                  simp only [if_true] at h
                  exfalso
                  cases h₆ : build_email_body ctf d token with
                  | error u => simp [h₆] at h
                  | ok html' =>
                    simp only [h₆] at h
                    cases h₇ : pyGetE ctf "name" with
                    | error u => simp [h₇] at h
                    | ok nm =>
                      simp only [h₇] at h
                      cases h₈ : pyGetE ctf "startDate" with
                      | error u => simp [h₈] at h
                      | ok sC =>
                        simp only [h₈] at h
                        cases h₉ : pyGetE d "starts_at" with
                        | error u => simp [h₉] at h
                        | ok sD => simp [h₉] at h

/-- Membership of the computed key skips the summary. -/
theorem discItem_skip_of_mem (fetch : Fetch) (n : String)
    (c : List (String × Json)) (ctf idJ slugJ : Json)
    (h₁ : pyGetE ctf "id" = .ok idJ) (h₂ : pyGetE ctf "slug" = .ok slugJ)
    (hm : pyStr idJ ∈ c.map Prod.fst) :
    discItem fetch n c ctf = .ok none := by
  unfold discItem
  simp only [h₁, h₂]
  have hg : ((pyStr idJ).isEmpty ||
      c.any (fun p => decide (p.1 = pyStr idJ))) = true := by
    simp only [Bool.or_eq_true, List.any_eq_true, decide_eq_true_eq]
    right
    simp only [List.mem_map] at hm
    obtain ⟨q, hq, hqk⟩ := hm
    exact ⟨q, hq, hqk⟩
  rw [if_pos (by simp [hg])]

/-- After a non-crashing discovery run, every catalog summary is settled:
re-examined against the final cache (at any timestamp), it is skipped. -/
theorem disc_fold_settled (fetch : Fetch) (o : String → Bool) (n₁ n₂ : String) :
    ∀ (l : List Json) (st : DiscOut), st.crashed = false →
      (List.foldl (discStep fetch o n₁) st l).crashed = false →
      ∀ ctf ∈ l, discItem fetch n₂
        (List.foldl (discStep fetch o n₁) st l).cache ctf = .ok none := by
  intro l
  induction l with
  | nil => intro st _ _ ctf hc; cases hc
  | cons e t ih =>
    intro st h0 hf ctf hc
    rw [List.foldl_cons] at hf ⊢
    have hst₁ : (discStep fetch o n₁ st e).crashed = false := by
      cases hcr : (discStep fetch o n₁ st e).crashed with
      | false => rfl
      | true =>
        rw [disc_fold_crashed fetch o n₁ t _ hcr] at hf
        rw [hcr] at hf
        exact absurd hf (by simp)
    rcases List.mem_cons.mp hc with heq | hc
    · subst heq
      cases hd : discItem fetch n₁ st.cache ctf with
      | error u =>
        exfalso
        have : (discStep fetch o n₁ st ctf).crashed = true := by
          unfold discStep
          rw [if_neg (by simp [h0]), hd]
        rw [this] at hst₁
        exact absurd hst₁ (by simp)
      | ok r =>
        cases r with
        | none =>
          have hstep : discStep fetch o n₁ st ctf = st := by
            unfold discStep
            rw [if_neg (by simp [h0]), hd]
          rw [hstep]
          apply discItem_skip_stable fetch n₁ n₂ st.cache _ ctf _ hd
          intro k hk
          exact disc_fold_keys_mono fetch o n₁ t st k hk
        | some out =>
          obtain ⟨cid, record, html, name⟩ := out
          have hev := discItem_inv fetch n₁ st.cache ctf cid record html name hd
          obtain ⟨idJ, slugJ, d, tok, hid, hkey, hslug, _, _, _⟩ := hev
          have hstep : discStep fetch o n₁ st ctf =
              { cache := st.cache ++ [(cid, record)], sends := st.sends ++ [html],
                saves := st.saves ++ [st.cache ++ [(cid, record)]],
                names := st.names ++ [name], crashed := false } := by
            unfold discStep
            rw [if_neg (by simp [h0]), hd]
          apply discItem_skip_of_mem fetch n₂ _ ctf idJ slugJ hid hslug
          rw [hkey]
          apply disc_fold_keys_mono fetch o n₁ t _ cid
          rw [hstep]
          simp
    · exact ih (discStep fetch o n₁ st e) hst₁ hf ctf hc

/-- A fold over settled summaries is a no-op. -/
theorem disc_fold_noop (fetch : Fetch) (o : String → Bool) (n : String) :
    ∀ (l : List Json) (st : DiscOut), st.crashed = false →
      (∀ ctf ∈ l, discItem fetch n st.cache ctf = .ok none) →
      List.foldl (discStep fetch o n) st l = st := by
  intro l
  induction l with
  | nil => intro st _ _; rfl
  | cons e t ih =>
    intro st h0 hall
    rw [List.foldl_cons]
    have hstep : discStep fetch o n st e = st := by
      unfold discStep
      rw [if_neg (by simp [h0]), hall e (by simp)]
    rw [hstep]
    exact ih st h0 (fun ctf hc => hall ctf (by simp [hc]))

/-- Claim C7: running the discovery pass a second time against the same
catalog and the same detail responses, starting from the cache of a completed
(non-crashed) first run, sends no notification and leaves the cache mapping
unchanged — whatever the second run's send oracle and timestamp. -/
theorem c7_discovery_idempotent (fetch : Fetch) (o₁ o₂ : String → Bool)
    (n₁ n₂ : String) (catalog : List Json) (c₀ : List (String × Json))
    (h : (discoveryPass fetch o₁ n₁ catalog c₀).crashed = false) :
    (discoveryPass fetch o₂ n₂ catalog
        (discoveryPass fetch o₁ n₁ catalog c₀).cache).sends = [] ∧
    (discoveryPass fetch o₂ n₂ catalog
        (discoveryPass fetch o₁ n₁ catalog c₀).cache).cache =
      (discoveryPass fetch o₁ n₁ catalog c₀).cache := by
  have hset := disc_fold_settled fetch o₁ n₁ n₂ catalog
    { cache := c₀, sends := [], saves := [], names := [], crashed := false }
    rfl h
  have hnoop := disc_fold_noop fetch o₂ n₂ catalog
    { cache := (discoveryPass fetch o₁ n₁ catalog c₀).cache, sends := [],
      saves := [], names := [], crashed := false } rfl hset
  unfold discoveryPass
  unfold discoveryPass at hnoop
  rw [hnoop]
  exact ⟨rfl, rfl⟩

/-- Witness for C7: the fixture catalog completes its first run without
crashing, so a second run sends nothing and changes nothing. -/
theorem c7_witness :
    (discoveryPass exFetchOk (fun _ => true) "t1" [exCtf]
        (discoveryPass exFetchOk (fun _ => true) "t0" [exCtf] []).cache).sends = [] ∧
    (discoveryPass exFetchOk (fun _ => true) "t1" [exCtf]
        (discoveryPass exFetchOk (fun _ => true) "t0" [exCtf] []).cache).cache =
      (discoveryPass exFetchOk (fun _ => true) "t0" [exCtf] []).cache :=
  c7_discovery_idempotent exFetchOk (fun _ => true) (fun _ => true) "t0" "t1"
    [exCtf] [] (by rfl)

theorem parseStrBody_enc (cs : List Char) : ∀ rest : List Char,
    parseStrBody (encStrBody cs ++ ('"' :: rest)) = some (cs, rest) := by
  induction cs with
  | nil =>
    intro rest
    show parseStrBody ([] ++ '"' :: rest) = some ([], rest)
    rw [List.nil_append, parseStrBody.eq_def]
    simp
  | cons c t ih =>
    intro rest
    by_cases h1 : c = '"'
    · subst h1
      show parseStrBody ((escChar '"' ++ encStrBody t) ++ '"' :: rest) = _
      rw [show escChar '"' = ['\\', '"'] from rfl]
      rw [show (['\\', '"'] ++ encStrBody t) ++ '"' :: rest =
        '\\' :: '"' :: (encStrBody t ++ '"' :: rest) from by simp]
      rw [parseStrBody.eq_def]
      simp [escDecode, ih]
    · by_cases h2 : c = '\\'
      · subst h2
        show parseStrBody ((escChar '\\' ++ encStrBody t) ++ '"' :: rest) = _
        rw [show escChar '\\' = ['\\', '\\'] from rfl]
        rw [show (['\\', '\\'] ++ encStrBody t) ++ '"' :: rest =
          '\\' :: '\\' :: (encStrBody t ++ '"' :: rest) from by simp]
        rw [parseStrBody.eq_def]
        simp [escDecode, ih]
      · have hesc : escChar c = [c] := by
          unfold escChar
          rw [if_neg]
          simp [h1, h2]
        show parseStrBody ((escChar c ++ encStrBody t) ++ '"' :: rest) = _
        rw [hesc]
        rw [show ([c] ++ encStrBody t) ++ '"' :: rest =
          c :: (encStrBody t ++ '"' :: rest) from by simp]
        rw [parseStrBody.eq_def]
        simp [h1, h2, ih]


theorem stripLit_pref (lit : List Char) : ∀ rest : List Char,
    stripLit lit (lit ++ rest) = some rest := by
  induction lit with
  | nil => intro rest; rfl
  | cons l ls ih =>
    intro rest
    rw [List.cons_append, stripLit.eq_def]
    simp [ih]

theorem parseJ_enc_str (f : Nat) (s : String) (rest : List Char) :
    parseJ (f + 1) (encodeJ (.str s) ++ rest) = some (.str s, rest) := by
  have h : encodeJ (.str s) ++ rest = '"' :: (encStrBody s.data ++ ('"' :: rest)) := by
    show ('"' :: encStrBody s.data ++ ['"']) ++ rest = _
    simp
  rw [h]
  rw [parseJ]
  rw [show skipWs ('"' :: (encStrBody s.data ++ ('"' :: rest))) =
    '"' :: (encStrBody s.data ++ ('"' :: rest)) from rfl]
  simp [parseStrBody_enc]

theorem parseJ_enc_null (f : Nat) (rest : List Char) :
    parseJ (f + 1) (encodeJ .null ++ rest) = some (.null, rest) := by
  show parseJ (f + 1) ('n' :: 'u' :: 'l' :: 'l' :: rest) = some (.null, rest)
  rw [parseJ]
  rw [show skipWs ('n' :: 'u' :: 'l' :: 'l' :: rest) =
    'n' :: 'u' :: 'l' :: 'l' :: rest from rfl]
  simp [isDig]
  rw [show ('n' :: 'u' :: 'l' :: 'l' :: rest) = "null".data ++ rest from rfl]
  rw [stripLit_pref]

theorem parseJ_enc_bool (f : Nat) (b : Bool) (rest : List Char) :
    parseJ (f + 1) (encodeJ (.bool b) ++ rest) = some (.bool b, rest) := by
  cases b with
  | true =>
    show parseJ (f + 1) ('t' :: 'r' :: 'u' :: 'e' :: rest) = _
    rw [parseJ]
    rw [show skipWs ('t' :: 'r' :: 'u' :: 'e' :: rest) =
      't' :: 'r' :: 'u' :: 'e' :: rest from rfl]
    simp [isDig]
    rw [show ('t' :: 'r' :: 'u' :: 'e' :: rest) = "true".data ++ rest from rfl]
    rw [show stripLit "null".data ("true".data ++ rest) = none from rfl]
    rw [stripLit_pref]
  | false =>
    show parseJ (f + 1) ('f' :: 'a' :: 'l' :: 's' :: 'e' :: rest) = _
    rw [parseJ]
    rw [show skipWs ('f' :: 'a' :: 'l' :: 's' :: 'e' :: rest) =
      'f' :: 'a' :: 'l' :: 's' :: 'e' :: rest from rfl]
    simp [isDig]
    rw [show ('f' :: 'a' :: 'l' :: 's' :: 'e' :: rest) = "false".data ++ rest from rfl]
    rw [show stripLit "null".data ("false".data ++ rest) = none from rfl]
    rw [show stripLit "true".data ("false".data ++ rest) = none from rfl]
    rw [stripLit_pref]


theorem parsePairs_last (f : Nat) (k : String) (v : Json) (rest : List Char)
    (hv : ∀ tl : List Char, parseJ f (encodeJ v ++ tl) = some (v, tl)) :
    parsePairs (f + 1) (encStr k ++ (':' :: (encodeJ v ++ ('\x7d' :: rest)))) =
      some ([(k, v)], rest) := by
  have hshape : encStr k ++ (':' :: (encodeJ v ++ ('\x7d' :: rest))) =
      '"' :: (encStrBody k.data ++ ('"' :: (':' :: (encodeJ v ++ ('\x7d' :: rest))))) := by
    show ('"' :: encStrBody k.data ++ ['"']) ++ _ = _
    simp
  rw [hshape, parsePairs]
  rw [show skipWs ('"' :: (encStrBody k.data ++ ('"' :: (':' :: (encodeJ v ++ ('\x7d' :: rest)))))) =
    '"' :: (encStrBody k.data ++ ('"' :: (':' :: (encodeJ v ++ ('\x7d' :: rest))))) from rfl]
  rw [show dropHead '"' ('"' :: (encStrBody k.data ++ ('"' :: (':' :: (encodeJ v ++ ('\x7d' :: rest)))))) =
    some (encStrBody k.data ++ ('"' :: (':' :: (encodeJ v ++ ('\x7d' :: rest))))) from rfl]
  dsimp only
  rw [parseStrBody_enc]
  dsimp only
  rw [show skipWs (':' :: (encodeJ v ++ ('\x7d' :: rest))) =
    ':' :: (encodeJ v ++ ('\x7d' :: rest)) from rfl]
  rw [show dropHead ':' (':' :: (encodeJ v ++ ('\x7d' :: rest))) =
    some (encodeJ v ++ ('\x7d' :: rest)) from rfl]
  dsimp only
  rw [hv]
  dsimp only
  rw [show skipWs ('\x7d' :: rest) = '\x7d' :: rest from rfl]
  simp

theorem parsePairs_comma (f : Nat) (k : String) (v : Json) (nxt : List Char)
    (hv : ∀ tl : List Char, parseJ f (encodeJ v ++ tl) = some (v, tl)) :
    parsePairs (f + 1) (encStr k ++ (':' :: (encodeJ v ++ (',' :: nxt)))) =
      (parsePairs f nxt).map fun p => ((k, v) :: p.1, p.2) := by
  have hshape : encStr k ++ (':' :: (encodeJ v ++ (',' :: nxt))) =
      '"' :: (encStrBody k.data ++ ('"' :: (':' :: (encodeJ v ++ (',' :: nxt))))) := by
    show ('"' :: encStrBody k.data ++ ['"']) ++ _ = _
    simp
  rw [hshape, parsePairs]
  rw [show skipWs ('"' :: (encStrBody k.data ++ ('"' :: (':' :: (encodeJ v ++ (',' :: nxt)))))) =
    '"' :: (encStrBody k.data ++ ('"' :: (':' :: (encodeJ v ++ (',' :: nxt))))) from rfl]
  rw [show dropHead '"' ('"' :: (encStrBody k.data ++ ('"' :: (':' :: (encodeJ v ++ (',' :: nxt)))))) =
    some (encStrBody k.data ++ ('"' :: (':' :: (encodeJ v ++ (',' :: nxt))))) from rfl]
  dsimp only
  rw [parseStrBody_enc]
  dsimp only
  rw [show skipWs (':' :: (encodeJ v ++ (',' :: nxt))) =
    ':' :: (encodeJ v ++ (',' :: nxt)) from rfl]
  rw [show dropHead ':' (':' :: (encodeJ v ++ (',' :: nxt))) =
    some (encodeJ v ++ (',' :: nxt)) from rfl]
  dsimp only
  rw [hv]
  dsimp only
  rw [show skipWs (',' :: nxt) = ',' :: nxt from rfl]
  simp


theorem parseJ_enc_flat (v : Json)
    (hflat : v = .null ∨ (∃ b, v = .bool b) ∨ (∃ s, v = .str s))
    (f : Nat) (rest : List Char) :
    parseJ (f + 1) (encodeJ v ++ rest) = some (v, rest) := by
  rcases hflat with rfl | ⟨b, rfl⟩ | ⟨s, rfl⟩
  · exact parseJ_enc_null f rest
  · exact parseJ_enc_bool f b rest
  · exact parseJ_enc_str f s rest

theorem parsePairs_record (f : Nat) (t : TrackingRecord) (rest : List Char) :
    parsePairs (f + 5)
      (encPairs [("slug", .str t.slug),
                 ("starts_at", match t.starts_at with
                               | some s => Json.str s | none => Json.null),
                 ("checked", .str t.checked),
                 ("reminder_sent", .bool t.reminder_sent)] ++ ('\x7d' :: rest)) =
      some ([("slug", .str t.slug),
             ("starts_at", match t.starts_at with
                           | some s => Json.str s | none => Json.null),
             ("checked", .str t.checked),
             ("reminder_sent", .bool t.reminder_sent)], rest) := by
  simp only [encPairs, List.append_assoc, List.cons_append]
  have e5 : f + 5 = (f + 4) + 1 := by omega
  rw [e5, parsePairs_comma (f + 4) "slug" (.str t.slug) _
    (fun tl => parseJ_enc_flat _ (by right; right; exact ⟨t.slug, rfl⟩) (f + 3) tl)]
  rw [parsePairs_comma (f + 3) "starts_at" _ _
    (fun tl => parseJ_enc_flat _
      (by
        cases t.starts_at with
        | none => left; rfl
        | some sv => right; right; exact ⟨sv, rfl⟩) (f + 2) tl)]
  rw [parsePairs_comma (f + 2) "checked" (.str t.checked) _
    (fun tl => parseJ_enc_flat _ (by right; right; exact ⟨t.checked, rfl⟩) (f + 1) tl)]
  rw [parsePairs_last (f + 1) "reminder_sent" (.bool t.reminder_sent) rest
    (fun tl => parseJ_enc_flat _ (by right; left; exact ⟨t.reminder_sent, rfl⟩) f tl)]
  rfl


theorem parseJ_enc_record (f : Nat) (t : TrackingRecord) (rest : List Char) :
    parseJ (f + 6) (encodeJ (trJson t) ++ rest) = some (trJson t, rest) := by
  have hsh : encodeJ (trJson t) ++ rest =
      '\x7b' :: (encPairs [("slug", .str t.slug),
        ("starts_at", match t.starts_at with
                      | some s => Json.str s | none => Json.null),
        ("checked", .str t.checked),
        ("reminder_sent", .bool t.reminder_sent)] ++ ('\x7d' :: rest)) := by
    show ('\x7b' :: encPairs _ ++ ['\x7d']) ++ rest = _
    simp
  have hq : encPairs [("slug", Json.str t.slug),
        ("starts_at", match t.starts_at with
                      | some s => Json.str s | none => Json.null),
        ("checked", .str t.checked),
        ("reminder_sent", .bool t.reminder_sent)] ++ ('\x7d' :: rest) =
      '"' :: (encStrBody "slug".data ++ ('"' :: (':' ::
        (encodeJ (Json.str t.slug) ++ (',' :: (encPairs [
          ("starts_at", match t.starts_at with
                        | some s => Json.str s | none => Json.null),
          ("checked", .str t.checked),
          ("reminder_sent", .bool t.reminder_sent)] ++ ('\x7d' :: rest))))))) := by
    simp [encPairs, encStr]
  have e6 : f + 6 = (f + 5) + 1 := by omega
  rw [hsh, e6, parseJ]
  rw [show skipWs ('\x7b' :: (encPairs [("slug", Json.str t.slug),
        ("starts_at", match t.starts_at with
                      | some s => Json.str s | none => Json.null),
        ("checked", .str t.checked),
        ("reminder_sent", .bool t.reminder_sent)] ++ ('\x7d' :: rest))) =
      '\x7b' :: (encPairs [("slug", Json.str t.slug),
        ("starts_at", match t.starts_at with
                      | some s => Json.str s | none => Json.null),
        ("checked", .str t.checked),
        ("reminder_sent", .bool t.reminder_sent)] ++ ('\x7d' :: rest)) from rfl]
  dsimp only
  rw [if_neg (by decide), if_neg (by decide), if_pos rfl]
  have hskip : skipWs (encPairs [("slug", Json.str t.slug),
        ("starts_at", match t.starts_at with
                      | some s => Json.str s | none => Json.null),
        ("checked", .str t.checked),
        ("reminder_sent", .bool t.reminder_sent)] ++ ('\x7d' :: rest)) =
      encPairs [("slug", Json.str t.slug),
        ("starts_at", match t.starts_at with
                      | some s => Json.str s | none => Json.null),
        ("checked", .str t.checked),
        ("reminder_sent", .bool t.reminder_sent)] ++ ('\x7d' :: rest) := by
    rw [hq]; rfl
  have hdrop : dropHead '\x7d' (encPairs [("slug", Json.str t.slug),
        ("starts_at", match t.starts_at with
                      | some s => Json.str s | none => Json.null),
        ("checked", .str t.checked),
        ("reminder_sent", .bool t.reminder_sent)] ++ ('\x7d' :: rest)) = none := by
    rw [hq]; rfl
  rw [hskip, hdrop]
  dsimp only
  rw [parsePairs_record f t rest]
  rfl


theorem parsePairs_cache (c : List (String × TrackingRecord)) :
    ∀ (f : Nat) (k : String) (t : TrackingRecord) (rest : List Char),
    parsePairs (f + (c.length + 7))
        (encPairs (((k, t) :: c).map fun p => (p.1, trJson p.2)) ++ ('\x7d' :: rest)) =
      some (((k, t) :: c).map fun p => (p.1, trJson p.2), rest) := by
  induction c with
  | nil =>
    intro f k t rest
    simp only [List.map_cons, List.map_nil, List.length_nil]
    have hsh : encPairs [(k, trJson t)] ++ ('\x7d' :: rest) =
        encStr k ++ (':' :: (encodeJ (trJson t) ++ ('\x7d' :: rest))) := by
      simp [encPairs]
    rw [hsh]
    rw [show f + (0 + 7) = (f + 6) + 1 from by omega]
    exact parsePairs_last (f + 6) k (trJson t) rest (fun tl => parseJ_enc_record f t tl)
  | cons e2 c' ih =>
    intro f k t rest
    obtain ⟨k₂, t₂⟩ := e2
    simp only [List.map_cons, List.length_cons]
    have hsh : encPairs ((k, trJson t) :: (k₂, trJson t₂) ::
          (c'.map fun p => (p.1, trJson p.2))) ++ ('\x7d' :: rest) =
        encStr k ++ (':' :: (encodeJ (trJson t) ++ (',' ::
          (encPairs ((k₂, trJson t₂) :: (c'.map fun p => (p.1, trJson p.2))) ++
            ('\x7d' :: rest))))) := by
      simp [encPairs]
    rw [hsh]
    rw [show f + (c'.length + 1 + 7) = (f + (c'.length + 7)) + 1 from by omega]
    rw [parsePairs_comma (f + (c'.length + 7)) k (trJson t) _
      (fun tl => parseJ_enc_record (f + (c'.length + 1)) t tl)]
    have h2 := ih f k₂ t₂ rest
    simp only [List.map_cons] at h2
    rw [h2]
    rfl

theorem encPairs_cons_head (k : String) (v : Json) (L : List (String × Json))
    (X : List Char) :
    ∃ Y, encPairs ((k, v) :: L) ++ X = '"' :: Y := by
  cases L with
  | nil =>
    exact ⟨encStrBody k.data ++ ('"' :: (':' :: (encodeJ v ++ X))),
      by simp [encPairs, encStr]⟩
  | cons q qs =>
    exact ⟨encStrBody k.data ++ ('"' :: (':' :: (encodeJ v ++
      (',' :: (encPairs (q :: qs) ++ X))))), by simp [encPairs, encStr]⟩

theorem parseJ_enc_cache (f : Nat) (k : String) (t : TrackingRecord)
    (c' : List (String × TrackingRecord)) (rest : List Char) :
    parseJ (f + (c'.length + 8))
        (encodeJ (.obj (((k, t) :: c').map fun p => (p.1, trJson p.2))) ++ rest) =
      some (.obj (((k, t) :: c').map fun p => (p.1, trJson p.2)), rest) := by
  simp only [List.map_cons]
  have hsh : encodeJ (.obj ((k, trJson t) :: (c'.map fun p => (p.1, trJson p.2)))) ++ rest =
      '\x7b' :: (encPairs ((k, trJson t) :: (c'.map fun p => (p.1, trJson p.2))) ++
        ('\x7d' :: rest)) := by
    show ('\x7b' :: encPairs _ ++ ['\x7d']) ++ rest = _
    simp
  obtain ⟨Y, hY⟩ := encPairs_cons_head k (trJson t)
    (c'.map fun p => (p.1, trJson p.2)) ('\x7d' :: rest)
  rw [hsh]
  rw [show f + (c'.length + 8) = (f + (c'.length + 7)) + 1 from by omega]
  rw [parseJ]
  rw [show skipWs ('\x7b' :: (encPairs ((k, trJson t) ::
      (c'.map fun p => (p.1, trJson p.2))) ++ ('\x7d' :: rest))) =
    '\x7b' :: (encPairs ((k, trJson t) :: (c'.map fun p => (p.1, trJson p.2))) ++
      ('\x7d' :: rest)) from rfl]
  dsimp only
  rw [if_neg (by decide), if_neg (by decide), if_pos rfl]
  have hskip : skipWs (encPairs ((k, trJson t) ::
      (c'.map fun p => (p.1, trJson p.2))) ++ ('\x7d' :: rest)) =
      encPairs ((k, trJson t) :: (c'.map fun p => (p.1, trJson p.2))) ++
        ('\x7d' :: rest) := by
    rw [hY]; rfl
  have hdrop : dropHead '\x7d' (encPairs ((k, trJson t) ::
      (c'.map fun p => (p.1, trJson p.2))) ++ ('\x7d' :: rest)) = none := by
    rw [hY]; rfl
  rw [hskip, hdrop]
  dsimp only
  have h2 := parsePairs_cache c' f k t rest
  simp only [List.map_cons] at h2
  rw [h2]
  rfl


theorem encodeJ_record_len (t : TrackingRecord) :
    8 ≤ (encodeJ (trJson t)).length := by
  show 8 ≤ ('\x7b' :: encPairs _ ++ ['\x7d']).length
  simp only [trJson, encPairs, encStr, List.length_append, List.length_cons,
    List.length_singleton]
  omega

theorem encPairs_cache_len (c : List (String × TrackingRecord)) :
    ∀ (k : String) (t : TrackingRecord),
    c.length + 6 ≤ (encPairs (((k, t) :: c).map fun p => (p.1, trJson p.2))).length := by
  induction c with
  | nil =>
    intro k t
    simp only [List.map_cons, List.map_nil, List.length_nil, encPairs]
    have h1 : 2 ≤ (encStr k).length := by
      show 2 ≤ ('"' :: encStrBody k.data ++ ['"']).length
      simp
    have h2 := encodeJ_record_len t
    simp only [List.length_append, List.length_cons]
    omega
  | cons e2 c' ih =>
    intro k t
    obtain ⟨k₂, t₂⟩ := e2
    simp only [List.map_cons, List.length_cons, encPairs]
    have h1 : 2 ≤ (encStr k).length := by
      show 2 ≤ ('"' :: encStrBody k.data ++ ['"']).length
      simp
    have h3 := ih k₂ t₂
    simp only [List.map_cons] at h3
    simp only [List.length_append, List.length_cons]
    omega

theorem c5_roundtrip_aux (k : String) (t : TrackingRecord)
    (c' : List (String × TrackingRecord)) :
    parseTop (encodeJ (.obj (((k, t) :: c').map fun p => (p.1, trJson p.2)))) =
      some (.obj (((k, t) :: c').map fun p => (p.1, trJson p.2))) := by
  unfold parseTop
  have hlen : c'.length + 8 ≤
      (encodeJ (.obj (((k, t) :: c').map fun p => (p.1, trJson p.2)))).length + 1 := by
    have h := encPairs_cache_len c' k t
    rw [show encodeJ (.obj (((k, t) :: c').map fun p => (p.1, trJson p.2))) =
      '\x7b' :: encPairs (((k, t) :: c').map fun p => (p.1, trJson p.2)) ++
        ['\x7d'] from rfl]
    simp only [List.length_append, List.length_cons, List.length_singleton]
    omega
  have hF := parseJ_enc_cache
    ((encodeJ (.obj (((k, t) :: c').map fun p => (p.1, trJson p.2)))).length + 1 -
      (c'.length + 8)) k t c' []
  rw [List.append_nil] at hF
  rw [show (encodeJ (.obj (((k, t) :: c').map fun p => (p.1, trJson p.2)))).length + 1 =
    (encodeJ (.obj (((k, t) :: c').map fun p => (p.1, trJson p.2)))).length + 1 -
      (c'.length + 8) + (c'.length + 8) from by omega]
  rw [hF]
  rfl

/-- Claim C5: saving any non-empty cache of TrackingRecords with `save_cache`
and loading the written file with `load_cache` yields a mapping equal in
content to the one saved. -/
theorem c5_roundtrip (c : List (String × TrackingRecord)) (hne : c ≠ []) :
    load_cache (some (save_cache (c.map fun p => (p.1, trJson p.2)))) =
      Json.obj (c.map fun p => (p.1, trJson p.2)) := by
  obtain ⟨k, t, c', rfl⟩ : ∃ k t c', c = (k, t) :: c' := by
    cases c with
    | nil => exact absurd rfl hne
    | cons e c' => exact ⟨e.1, e.2, c', rfl⟩
  unfold load_cache save_cache
  dsimp only
  rw [c5_roundtrip_aux k t c']


/-- Witness for C5: a concrete singleton cache survives the round trip. -/
theorem c5_witness :
    ([("12", TrackingRecord.mk "my-slug" (some "2025-11-07T13:00:00Z") "t0" false)] ≠
      ([] : List (String × TrackingRecord))) ∧
    load_cache (some (save_cache
        ([("12", TrackingRecord.mk "my-slug" (some "2025-11-07T13:00:00Z") "t0" false)].map
          fun p => (p.1, trJson p.2)))) =
      Json.obj
        ([("12", TrackingRecord.mk "my-slug" (some "2025-11-07T13:00:00Z") "t0" false)].map
          fun p => (p.1, trJson p.2)) :=
  ⟨by simp, c5_roundtrip _ (by simp)⟩


end HTB
